import Mathlib

/-! ## gdem_tileset: block cache, source index and elevation service

A shallow embedding of `src/gdem.h` and `src/gdem.cpp`, with the call of
`makeNullImage` made by `src/main.cpp`.

* C++ `int` keys are `Int` (no key computed here leaves the 32-bit range).
* `size_t` arithmetic is `Nat` taken modulo `2^64` where the source can wrap.
* `double` values are modelled by exact rationals `ℚ`; the cast `(int)d`
  truncates toward zero.  The Mercator conversions, which call `exp`, `log`,
  `tan` and `atan`, take these functions as parameters and are studied over `ℝ`.
* `std::unordered_map<int, V>` is an association list holding at most one
  entry per key; `std::queue<int>` is a list whose head is the queue front.
-/

namespace GdemTileset

/-! ## `std::unordered_map<int, V>` -/

/-- The lookup `m.find(key)`: the value stored under `key`, if any. -/
def mapFind {β : Type} : List (Int × β) → Int → Option β
  | [], _ => none
  | (k, v) :: rest, key => if k = key then some v else mapFind rest key

/-- The assignment `m[key] = v`: overwrite the entry of `key` or add one. -/
def mapSet {β : Type} : List (Int × β) → Int → β → List (Int × β)
  | [], key, v => [(key, v)]
  | (k, w) :: rest, key, v =>
      if k = key then (key, v) :: rest else (k, w) :: mapSet rest key v

/-- The removal `m.erase(key)`. -/
def mapErase {β : Type} : List (Int × β) → Int → List (Int × β)
  | [], _ => []
  | (k, w) :: rest, key =>
      if k = key then mapErase rest key else (k, w) :: mapErase rest key

/-! ## `TileCache` (gdem.h, lines 66-108) -/

/-- The cache: capacity `_size`, the key-to-block map and the FIFO queue. -/
structure TileCache (β : Type) where
  _size : Nat
  _map : List (Int × β)
  _queue : List Int

/-- The constructor `TileCache(size)`: an empty map and an empty queue. -/
def TileCache.empty {β : Type} (size : Nat) : TileCache β :=
  { _size := size, _map := [], _queue := [] }

/-- The method `TileCache::insert` (gdem.h, lines 73-91). -/
def TileCache.insert {β : Type} (c : TileCache β) (key : Int) (tile : β) : TileCache β :=
  match mapFind c._map key with
  | some _ => c
  | none =>
    let m := mapSet c._map key tile
    let q := c._queue ++ [key]
    if q.length > c._size then
      match q with
      | [] => { c with _map := m, _queue := q }
      | eraseKey :: rest => { c with _map := mapErase m eraseKey, _queue := rest }
    else
      { c with _map := m, _queue := q }

/-- The method `TileCache::tryGet` (gdem.h, lines 93-102). -/
def TileCache.tryGet {β : Type} (c : TileCache β) (key : Int) : Option β :=
  mapFind c._map key

/-- The cache after a sequence of `insert` calls on the empty cache. -/
def TileCache.run {β : Type} (size : Nat) (ops : List (Int × β)) : TileCache β :=
  ops.foldl (fun c op => c.insert op.1 op.2) (TileCache.empty size)

/-- The representation invariant of a cache built by `insert` calls: the map
holds exactly the queued keys, in queue order, and no key is queued twice. -/
def TileCache.Linked {β : Type} (c : TileCache β) : Prop :=
  c._map.map Prod.fst = c._queue ∧ c._queue.Nodup

/-- The loop `while (resolution > min_resolution) { lod++; resolution /= 2.0; }`.
`fuel` bounds the number of tests of the loop condition; `none` means the loop
has not ended within that bound. -/
def initLodLoop : Nat → ℚ → ℚ → Int → Option Int
  | 0, _, _, _ => none
  | fuel + 1, resolution, min_resolution, lod =>
    if resolution > min_resolution then
      initLodLoop fuel (resolution / 2) min_resolution (lod + 1)
    else some lod

/-- The value left in `max_lod` by `GdemPool::init`.  For `tile_size = 1` the
source divides `180.0` by `0.0`; the quotient `+inf` stays `+inf` when halved,
so the loop never ends (`none`). -/
def GdemPool.initMaxLod (fuel : Nat) (max_lod tile_size : Int) : Option Int :=
  if tile_size = 1 then none
  else
    let min_resolution : ℚ := 1 / 3600
    let resolution_at_lod0 : ℚ := 180 / ((tile_size : ℚ) - 1)
    match initLodLoop fuel resolution_at_lod0 min_resolution 0 with
    | none => none
    | some lod => if max_lod < 0 ∨ max_lod > lod then some lod else some max_lod

/-! ## `std::string` operations used by `GdemPool::init` -/

/-- The constant `std::string::npos`, the largest `size_t`. -/
def npos : Nat := 2 ^ 64 - 1

/-- The search `s.find(c)` from a given position: the index of the first `c`,
or `npos`. -/
def strFindFrom (c : Char) : List Char → Nat → Nat
  | [], _ => npos
  | x :: rest, i => if x = c then i else strFindFrom c rest (i + 1)

/-- The call `s.find(c)`. -/
def strFind (s : List Char) (c : Char) : Nat := strFindFrom c s 0

/-- The call `s.at(i)`; `none` stands for the `std::out_of_range` it throws
when `i ≥ s.size()`. -/
def strAt (s : List Char) (i : Nat) : Option Char := s.get? i

/-- The call `s.substr(pos, n)`; `none` stands for the `std::out_of_range` it
throws when `pos > s.size()`. -/
def strSubstr (s : List Char) (pos n : Nat) : Option (List Char) :=
  if pos > s.length then none else some ((s.drop pos).take n)

/-- The white-space characters skipped by `atoi` (`isspace` in the C locale). -/
def isSpace (c : Char) : Bool :=
  c = Char.ofNat 32 || (9 ≤ c.toNat && c.toNat ≤ 13)

/-- The digit run read by `atoi`, accumulated in base ten. -/
def atoiDigits : List Char → Int → Int
  | [], acc => acc
  | c :: rest, acc =>
      if c.isDigit then atoiDigits rest (acc * 10 + ((c.toNat : Int) - 48)) else acc

/-- The C function `atoi` on the characters of a string: leading white space,
an optional sign, then decimal digits up to the first other character. -/
def atoi (s : List Char) : Int :=
  match s.dropWhile isSpace with
  | '-' :: rest => - atoiDigits rest 0
  | '+' :: rest => atoiDigits rest 0
  | rest => atoiDigits rest 0

/-! ## `GdemPool` (gdem.h, lines 110-143) -/

/-- The value `NODATA` (gdem.h, line 34). -/
def NODATA : Int := -9999

/-- The cast `(int)d` of a double: truncation toward zero. -/
def toInt (d : ℚ) : Int := if 0 ≤ d then ⌊d⌋ else -⌊-d⌋

/-- A sub-block (gdem.h, lines 43-64): its south-west corner and its
`226 * 226` samples of type `int16_t`, by buffer index. -/
structure DEMTileBlock where
  west : ℚ
  south : ℚ
  data : Nat → Int

/-- One rectangle held by the R-tree `tile_tree`, with its payload. -/
structure TreeEntry where
  bmin : ℚ × ℚ
  bmax : ℚ × ℚ
  key : Int

/-- The pool: `tile_map` from cell key to source path, the block cache, and
the R-tree.  The R-tree of `rtree.hpp` is held as the list of the rectangles
given to `Insert`, in insertion order. -/
structure GdemPool where
  tile_map : List (Int × String)
  tile_cache : TileCache DEMTileBlock
  tile_tree : List TreeEntry

/-- A freshly constructed pool: nothing indexed, an empty cache of the
default capacity 20480. -/
def GdemPool.new : GdemPool :=
  { tile_map := [], tile_cache := TileCache.empty 20480, tile_tree := [] }

/-- A candidate source file as `init` sees it: its path, the stem of its file
name, whether `GDALOpen` succeeds, and the raster size GDAL reports. -/
structure SourceFile where
  path : String
  stem : List Char
  opens : Bool
  w : Int
  h : Int

/-- The body of the per-file lambda of `GdemPool::init` (gdem.cpp, lines
96-156).  `none` stands for an uncaught `std::out_of_range`, which ends the
process.  The test `index1 < 0` is on a `size_t` and the index sums wrap
modulo `2^64`. -/
def GdemPool.initFile (pool : GdemPool) (f : SourceFile) : Option GdemPool :=
  if !f.opens then some pool
  else if f.w = 3601 ∧ f.h = 3601 then
    let file_name := f.stem
    let index1 : Nat := strFind file_name '_'
    if index1 < 0 then some pool
    else do
      let lat_char ← strAt file_name ((index1 + 1) % 2 ^ 64)
      let lat_str ← strSubstr file_name ((index1 + 2) % 2 ^ 64) 2
      let lon_char ← strAt file_name ((index1 + 4) % 2 ^ 64)
      let lon_str ← strSubstr file_name ((index1 + 5) % 2 ^ 64) 3
      let ilat := atoi lat_str
      let ilon := atoi lon_str
      let ilat := if lat_char = 'S' then -ilat else ilat
      let ilon := if lon_char = 'W' then -ilon else ilon
      let bmin : ℚ × ℚ := ((ilon : ℚ), (ilat : ℚ))
      let bmax : ℚ × ℚ := ((ilon : ℚ) + 1, (ilat : ℚ) + 1)
      let ilat := ilat + 90
      let ilon := ilon + 180
      let key := ilat * 360 + ilon
      some { pool with
        tile_map := mapSet pool.tile_map key f.path
        tile_tree := pool.tile_tree ++ [{ bmin := bmin, bmax := bmax, key := key }] }
  else some pool

/-- The indexing pass of `GdemPool::init` over the expanded file list; the
insertions are serialised by the lock held in the lambda. -/
def GdemPool.initFiles (pool : GdemPool) (expanded : List SourceFile) : Option GdemPool :=
  expanded.foldlM GdemPool.initFile pool

/-! ## `GdemPool::getElevation` (gdem.cpp, lines 164-267) -/

/-- How a call ends when it does not return: `exit(code)`, or a read of
`data[index]` outside the `226 * 226` buffer of a block. -/
inductive Fault where
  | exit (code : Nat)
  | outOfBounds (index : Int)

/-- What GDAL gives for an opened source raster: the native block size of
band 1, and `RasterIO` reading the `226 x 226` window at `(xOffset, yOffset)`
into a buffer (`none` when it does not return `CE_None`). -/
structure Dataset where
  nXBlockSize : Int
  nYBlockSize : Int
  RasterIO : Int → Int → Option (Nat → Int)

/-- The method `GdemPool::getElevation`.  `files path` is `GDALOpen(path)`.
The result is the value returned (an `int16_t` sample or `NODATA`, widened to
`double` by the source) and the pool with its updated cache. -/
def GdemPool.getElevation (files : String → Option Dataset) (pool : GdemPool)
    (lon lat : ℚ) : Except Fault (Int × GdemPool) :=
  let ilon := toInt (lon + 180)
  let ilat := toInt (lat + 90)
  let key := ilat * 360 + ilon
  match mapFind pool.tile_map key with
  | none => .ok (NODATA, pool)
  | some path =>
    let ilon_block := toInt (lon * 16 + 180 * 16)
    let ilat_block := toInt (lat * 16 + 90 * 16)
    let key_block := ilat_block * 360 * 16 + ilon_block
    let fetched : Except Fault (DEMTileBlock × GdemPool) :=
      match pool.tile_cache.tryGet key_block with
      | some pTileBlock => .ok (pTileBlock, pool)
      | none =>
        match files path with
        | none => .error (Fault.exit 1)
        | some poDataset =>
          if poDataset.nXBlockSize < 226 ∨ poDataset.nYBlockSize < 226 then
            .error (Fault.exit 1)
          else
            let xOffset := (Int.tmod ilon_block 16) * 225
            let yOffset := (15 - Int.tmod ilat_block 16) * 225
            match poDataset.RasterIO xOffset yOffset with
            | none => .error (Fault.exit 1)
            | some data =>
              let pTileBlock : DEMTileBlock :=
                { west := ilon_block * 0.0625 - 180, south := ilat_block * 0.0625 - 90,
                  data := data }
              .ok (pTileBlock,
                { pool with tile_cache := pool.tile_cache.insert key_block pTileBlock })
    match fetched with
    | .error e => .error e
    | .ok (pTileBlock, pool1) =>
      let unit_col := (lon - pTileBlock.west) * 16
      let unit_row := (pTileBlock.south + 0.0625 - lat) * 16
      let col := toInt (225 * unit_col + 0.5)
      let row := toInt (225 * unit_row + 0.5)
      let index := row * 226 + col
      if 0 ≤ index ∧ index < 226 * 226 then .ok (pTileBlock.data index.toNat, pool1)
      else .error (Fault.outOfBounds index)

/-- A source raster whose every sample is `v`, with native block size 256. -/
def constDataset (v : Int) : Dataset :=
  { nXBlockSize := 256, nYBlockSize := 256, RasterIO := fun _ _ => some (fun _ => v) }

/-- Whether the closed box of an R-tree entry contains the point `(lon, lat)`. -/
def TreeEntry.containsPoint (t : TreeEntry) (lon lat : ℚ) : Prop :=
  t.bmin.1 ≤ lon ∧ lon ≤ t.bmax.1 ∧ t.bmin.2 ≤ lat ∧ lat ≤ t.bmax.2

/-! ## `GdemPool::makeElevation` (gdem.cpp, lines 281-298) -/

/-- The body of the inner loop for pixel `(x, y)`: one `getElevation` call and
the write `data[y * width + x] = (int16_t)ele`.  The value is an `int16_t`
sample, `NODATA` or `0`, so the cast to `int16_t` keeps it. -/
def GdemPool.makeElevationPixel (files : String → Option Dataset)
    (west north xStep yStep : ℚ) (width : Int) (y : Nat)
    (st : (Int → Int) × GdemPool) (x : Nat) : Except Fault ((Int → Int) × GdemPool) :=
  let lon := west + x * xStep
  let lat := north - y * yStep
  match GdemPool.getElevation files st.2 lon lat with
  | .error e => .error e
  | .ok (ele, pool1) =>
    let ele := if ele ≤ NODATA then 0 else ele
    .ok (Function.update st.1 ((y : Int) * width + (x : Int)) ele, pool1)

/-- The inner loop `for (int x = 0; x < width; x++)` of row `y`. -/
def GdemPool.makeElevationRow (files : String → Option Dataset)
    (west north xStep yStep : ℚ) (width : Int)
    (st : (Int → Int) × GdemPool) (y : Nat) : Except Fault ((Int → Int) × GdemPool) :=
  (List.range width.toNat).foldlM
    (GdemPool.makeElevationPixel files west north xStep yStep width y) st

/-- The method `GdemPool::makeElevation`: the buffer `data` (by index) and the
pool after both loops. -/
def GdemPool.makeElevation (files : String → Option Dataset) (pool : GdemPool)
    (west south east north : ℚ) (width height : Int) (data : Int → Int) :
    Except Fault ((Int → Int) × GdemPool) :=
  let xStep := (east - west) / ((width : ℚ) - 1)
  let yStep := (north - south) / ((height : ℚ) - 1)
  (List.range height.toNat).foldlM
    (GdemPool.makeElevationRow files west north xStep yStep width) (data, pool)

/-- The value of a decimal digit character. -/
def digitVal (c : Char) : Int := (c.toNat : Int) - 48

/-! ## Tile bounds and geotransform (gdem.cpp, lines 353-362, 378-389, 398-405, 623-637) -/

/-- The geographic bounds of a tile. -/
structure TileBounds where
  west : ℚ
  south : ℚ
  east : ℚ
  north : ℚ

/-- The six numbers of `double geoTransform[6]`. -/
structure GeoTransform where
  g0 : ℚ
  g1 : ℚ
  g2 : ℚ
  g3 : ℚ
  g4 : ℚ
  g5 : ℚ

/-- The bounds computed by `makeElevationImage(z, x, y, ...)` (gdem.cpp, lines
381-385).  The shift `1 << z` is `2^z` for the levels `0 ≤ z ≤ 30` an `int`
shift can produce. -/
def GdemPool.tileBounds (z : Nat) (x y : Int) : TileBounds :=
  let step : ℚ := 180 / ((2 ^ z : Int) : ℚ)
  let west : ℚ := -180 + x * step
  let east : ℚ := west + step
  let north : ℚ := 90 - y * step
  let south : ℚ := north - step
  { west := west, south := south, east := east, north := north }

/-- The geotransform set by the `tif` branch of
`makeElevationImage(west, south, east, north, ...)` (gdem.cpp, lines 353-361). -/
def GdemPool.makeElevationImage_geoTransform (west south east north : ℚ)
    (width height : Int) : GeoTransform :=
  let xResolution : ℚ := (east - west) / ((width - 1 : Int) : ℚ)
  let yResolution : ℚ := (south - north) / ((height - 1 : Int) : ℚ)
  { g0 := west - xResolution * 0.5, g1 := xResolution, g2 := 0,
    g3 := north - yResolution * 0.5, g4 := 0, g5 := yResolution }

/-- The geotransform the base-level builder `makeElevationImage(z, x, y, ...)`
sets for a tile: the bounds of lines 381-385 passed on to the other overload. -/
def GdemPool.makeElevationImage_tileGeoTransform (z : Nat) (x y : Int)
    (width height : Int) : GeoTransform :=
  let b := GdemPool.tileBounds z x y
  GdemPool.makeElevationImage_geoTransform b.west b.south b.east b.north width height

/-- The geotransform set by the `tif` branch of `makeLodImage` (gdem.cpp,
lines 623-636), which recomputes the bounds in place. -/
def GdemPool.makeLodImage_geoTransform (z : Nat) (x y : Int) (width height : Int) :
    GeoTransform :=
  let step : ℚ := 180 / ((2 ^ z : Int) : ℚ)
  let west : ℚ := -180 + x * step
  let east : ℚ := west + step
  let north : ℚ := 90 - y * step
  let south : ℚ := north - step
  let xResolution : ℚ := (east - west) / ((width - 1 : Int) : ℚ)
  let yResolution : ℚ := (south - north) / ((height - 1 : Int) : ℚ)
  { g0 := west - xResolution * 0.5, g1 := xResolution, g2 := 0,
    g3 := north - yResolution * 0.5, g4 := 0, g5 := yResolution }

/-- The tile of level `z` enclosing a point, as the spec words it: the column
`floor((lon + 180) / step)` and the row `floor((90 - lat) / step)`. -/
def enclosingTile (z : Nat) (lon lat : ℚ) : Int × Int :=
  let step : ℚ := 180 / ((2 ^ z : Int) : ℚ)
  (⌊(lon + 180) / step⌋, ⌊(90 - lat) / step⌋)

/-- Whether a point lies in the closed rectangle of the bounds. -/
def TileBounds.contains (b : TileBounds) (lon lat : ℚ) : Prop :=
  b.west ≤ lon ∧ lon ≤ b.east ∧ b.south ≤ lat ∧ lat ≤ b.north

/-- Whether a point lies strictly inside the rectangle of the bounds. -/
def TileBounds.interior (b : TileBounds) (lon lat : ℚ) : Prop :=
  b.west < lon ∧ lon < b.east ∧ b.south < lat ∧ lat < b.north

/-- The child tile whose file `makeLodImage` reads for the quadrant `(cx, cy)`
(gdem.cpp, lines 402-405): `(z + 1, x * 2 + cx, y * 2 + cy)`. -/
def GdemPool.lodChild (z : Nat) (x y : Int) (cx cy : Int) : Nat × Int × Int :=
  (z + 1, x * 2 + cx, y * 2 + cy)

/-! ## `GdemPool::contains` (gdem.cpp, lines 269-279) -/

/-- Modelled from the spec: `RTree::Search` of rtree.hpp, which is not under
src/: the number of stored rectangles that intersect the closed query box
`[bmin, bmax]`. -/
def treeSearch (tree : List TreeEntry) (bmin bmax : ℚ × ℚ) : Nat :=
  (tree.filter (fun t =>
    decide (t.bmin.1 ≤ bmax.1 ∧ bmin.1 ≤ t.bmax.1 ∧ t.bmin.2 ≤ bmax.2 ∧ bmin.2 ≤ t.bmax.2))).length

/-- The method `GdemPool::contains`. -/
def GdemPool.contains (pool : GdemPool) (west south east north : ℚ) : Bool :=
  let bmin : ℚ × ℚ := (west, south)
  let bmax : ℚ × ℚ := (east, north)
  let n := treeSearch pool.tile_tree bmin bmax
  if n > 0 then true else false

/-! ## Mercator conversions (gdem.h, lines 12-32)

The functions `exp`, `atan`, `log`, `tan` of the C library are parameters of
the two conversions, which are otherwise field arithmetic. -/

/-- The constant `EARTH_LENGTH`, 20037508.34. -/
def EARTH_LENGTH (K : Type) [Field K] : K := 2003750834 / 100

/-- The constant `M_PI`, 3.14159265358979323846. -/
def M_PI (K : Type) [Field K] : K := 314159265358979323846 / 100000000000000000000

/-- The function `mercatorToLonlat` (gdem.h, lines 20-25): the pair `(lon, lat)`. -/
def mercatorToLonlat {K : Type} [Field K] (exp atan : K → K) (x y : K) : K × K :=
  let lon := x / EARTH_LENGTH K * 180
  let lat := y / EARTH_LENGTH K * 180
  let lat := 180 / M_PI K * (2 * atan (exp (lat * M_PI K / 180)) - M_PI K / 2)
  (lon, lat)

/-- The function `lonlatToMercator` (gdem.h, lines 27-32): the pair `(x, y)`. -/
def lonlatToMercator {K : Type} [Field K] (log tan : K → K) (lon lat : K) : K × K :=
  let x := lon / 180 * EARTH_LENGTH K
  let y := log (tan ((90 + lat) * M_PI K / 360)) / (M_PI K / 180)
  let y := y * EARTH_LENGTH K / 180
  (x, y)

/-! ## Block indexing inside `getElevation` (gdem.cpp, lines 175-177, 244-245, 257-260) -/

/-- The value `ilon_block = (int)(lon * 16.0 + 180.0 * 16.0)`. -/
def GdemPool.ilon_block (lon : ℚ) : Int := toInt (lon * 16 + 180 * 16)

/-- The value `ilat_block = (int)(lat * 16.0 + 90.0 * 16.0)`. -/
def GdemPool.ilat_block (lat : ℚ) : Int := toInt (lat * 16 + 90 * 16)

/-- The value `key_block = ilat_block * 360 * 16 + ilon_block`. -/
def GdemPool.key_block (lon lat : ℚ) : Int :=
  GdemPool.ilat_block lat * 360 * 16 + GdemPool.ilon_block lon

/-- The value `xOffset = (ilon_block % 16) * 225`. -/
def GdemPool.xOffset (ilon_block : Int) : Int := Int.tmod ilon_block 16 * 225

/-- The value `yOffset = (15 - (ilat_block % 16)) * 225`. -/
def GdemPool.yOffset (ilat_block : Int) : Int := (15 - Int.tmod ilat_block 16) * 225

/-- The column `col = (int)(225.0 * unit_col + 0.5)` inside a block of the given
west edge. -/
def GdemPool.blockCol (west lon : ℚ) : Int := toInt (225 * ((lon - west) * 16) + 0.5)

/-- The row `row = (int)(225.0 * unit_row + 0.5)` inside a block of the given
south edge. -/
def GdemPool.blockRow (south lat : ℚ) : Int := toInt (225 * ((south + 0.0625 - lat) * 16) + 0.5)

/-! ## `GdemPool::makeNullImage` (gdem.cpp, lines 653-732) -/

/-- The file written by `GdemPool::makeNullImage` as gdem.cpp defines it: its
path, the GDAL driver that creates it, and its size.  `memOk` and `pngOk` tell
whether the `MEM` dataset and the `PNG` copy are created; `none` means that no
file is written.  The definition has the parameters
`(width, height, format, out_dir)`: the `type` of the declaration in gdem.h is
not among them. -/
def GdemPool.makeNullImage (width height : Int) (format out_dir : String)
    (memOk pngOk : Bool) : Option (String × String × Int × Int) :=
  let path := out_dir ++ "/null.png"
  if format = "grey" then
    if !memOk then none
    else if !pngOk then none
    else some (path, "PNG", width, height)
  else if format = "rgba" then
    if !memOk then none
    else if !pngOk then none
    else some (path, "PNG", width, height)
  else none

/-- The call `gdem_pool.makeNullImage(tile_size, tile_size, out_format, out_type, outdir)`
of `main` (main.cpp, line 414), bound to the definition gdem.cpp gives, in
which `out_type` has no parameter to go to. -/
def mainMakeNullImage (tile_size : Int) (out_format out_type outdir : String)
    (memOk pngOk : Bool) : Option (String × String × Int × Int) :=
  GdemPool.makeNullImage tile_size tile_size out_format outdir memOk pngOk

/-! ## `GdemPool::makeLodImage`: quadrant assembly (gdem.cpp, lines 416-422 and the
four copy loops at lines 453-459, 492-498, 531-537, 570-576) -/

/-- The value `subwidth = (int)(width / 2 + 1)`. -/
def GdemPool.subwidth (width : Int) : Int := Int.tdiv width 2 + 1

/-- The value `subheight = (int)(height / 2 + 1)`. -/
def GdemPool.subheight (height : Int) : Int := Int.tdiv height 2 + 1

/-- The index written for sub-tile pixel `(x, y)` by the copy loop of child
`(cx, cy)`: the four loops differ in this expression only (`00` lines 457,
`01` line 496, `10` line 535, `11` line 574). -/
def GdemPool.lodDestIndex (width height cx cy x y : Int) : Int :=
  if cx = 0 then
    if cy = 0 then y * width + x
    else (height - GdemPool.subheight height + y) * width + x
  else
    if cy = 0 then y * width + width - GdemPool.subwidth width + x
    else (height - GdemPool.subheight height + y) * width + width - GdemPool.subwidth width + x

/-- One write `data[index] = value` into a buffer of `size` elements; a write
outside the buffer is a fault. -/
def bufferWrite (size : Int) (data : Int → Int) (index value : Int) :
    Except Fault (Int → Int) :=
  if 0 ≤ index ∧ index < size then .ok (Function.update data index value)
  else .error (Fault.outOfBounds index)

/-- The inner loop `for (int x = 0; x < subwidth; x++)` of a copy loop. -/
def GdemPool.lodCopyRow (width height cx cy : Int) (subdata : Int → Int)
    (data : Int → Int) (y : Nat) : Except Fault (Int → Int) :=
  (List.range (GdemPool.subwidth width).toNat).foldlM
    (fun (data : Int → Int) (x : Nat) => bufferWrite (width * height) data
      (GdemPool.lodDestIndex width height cx cy (x : Int) (y : Int))
      (subdata ((y : Int) * GdemPool.subwidth width + (x : Int)))) data

/-- The copy loop of child `(cx, cy)`: `subdata`, the child read at
`subwidth x subheight`, is written into the `width * height` buffer `data`. -/
def GdemPool.lodCopy (width height cx cy : Int) (subdata : Int → Int)
    (data : Int → Int) : Except Fault (Int → Int) :=
  (List.range (GdemPool.subheight height).toNat).foldlM
    (GdemPool.lodCopyRow width height cx cy subdata) data

/-- The destination origin of child `(cx, cy)` as the spec lists it: NW
`(0, 0)`, SW `(0, H - h')`, NE `(W - w', 0)`, SE `(W - w', H - h')`. -/
def lodOrigin (width height cx cy : Int) : Int × Int :=
  (if cx = 0 then 0 else width - GdemPool.subwidth width,
   if cy = 0 then 0 else height - GdemPool.subheight height)

/-! ## `GdemPool::makeLodImage`: existence checks, child reads and assembly
(gdem.cpp, lines 391-461 and the three sibling blocks up to line 581) -/

/-- What a tile file on disk is to GDAL: `GDALOpen` fails on it; or it opens
and the `RasterIO` read fails; or the read of the whole image at
`subwidth x subheight` fills `subdata` (by buffer index). -/
inductive TileFile where
  | unopenable
  | unreadable
  | readable (subdata : Int → Int)

/-- The call `GDALOpen(path, GA_ReadOnly)` on a disk that maps a path to the
file there, if any: `none` is the null pointer. -/
def gdalOpen (disk : String → Option TileFile) (path : String) : Option TileFile :=
  match disk path with
  | none => none
  | some TileFile.unopenable => none
  | some f => some f

/-- The call `poDataset->RasterIO(GF_Read, 0, 0, width, height, subdata, subwidth,
subheight, ...)`: the buffer read, or `none` when the code is not `CE_None`. -/
def rasterRead : TileFile → Option (Int → Int)
  | TileFile.readable subdata => some subdata
  | _ => none

/-- How `makeLodImage` ends before it reaches the encoding of the output. -/
inductive LodStop where
  | outputExists
  | noChildren
  | notGrey
  | abandoned (path : String)
  | nullDereference (path : String)
  | fault (f : Fault)

/-- The opening and reading of one existing child (gdem.cpp, lines 426-451 for
child `00`; the blocks of `01`, `10`, `11` repeat it).  `rebuild disk path` is
the file left at `path` by `fs::remove(path)` followed by the base-level builder
`makeElevationImage` (`none`: no file).  `abandoned` is the `return` at
`code != CE_None`; `nullDereference` is the call `poDataset->RasterIO` made
with the null pointer that the second `GDALOpen` returned. -/
def GdemPool.lodReadChild (rebuild : (String → Option TileFile) → String → Option TileFile)
    (disk : String → Option TileFile) (path : String) :
    Except LodStop ((Int → Int) × (String → Option TileFile)) :=
  let opened : Option TileFile × (String → Option TileFile) :=
    match gdalOpen disk path with
    | some f => (some f, disk)
    | none =>
      let disk1 := Function.update disk path (rebuild disk path)
      (gdalOpen disk1 path, disk1)
  match opened with
  | (none, _) => .error (LodStop.nullDereference path)
  | (some f, disk1) =>
    match rasterRead f with
    | some subdata => .ok (subdata, disk1)
    | none =>
      let disk2 := Function.update disk1 path (rebuild disk1 path)
      match gdalOpen disk2 path with
      | none => .error (LodStop.nullDereference path)
      | some f2 =>
        match rasterRead f2 with
        | some subdata => .ok (subdata, disk2)
        | none => .error (LodStop.abandoned path)

/-- The block `if (existXY) { ... }` of child `(cx, cy)`: read the child, then
run its copy loop. -/
def GdemPool.lodChildStep (rebuild : (String → Option TileFile) → String → Option TileFile)
    (width height : Int) (exist : Bool) (path : String) (cx cy : Int)
    (st : (Int → Int) × (String → Option TileFile)) :
    Except LodStop ((Int → Int) × (String → Option TileFile)) :=
  if exist then
    match GdemPool.lodReadChild rebuild st.2 path with
    | .error e => .error e
    | .ok (subdata, disk1) =>
      match GdemPool.lodCopy width height cx cy subdata st.1 with
      | .error f => .error (LodStop.fault f)
      | .ok data1 => .ok (data1, disk1)
  else .ok st

/-- The method `GdemPool::makeLodImage` up to line 581.  `tilePath z x y` is
the path `out_dir/z/x/y.type` (its number format is that of `formatNumber`,
which is not under src/).  The result `.ok (data, disk)` is the assembled
`width * height` buffer, which the rest of the method hands to the encoder of
`type`, and the disk as the child repairs left it. -/
def GdemPool.makeLodImage (tilePath : Int → Int → Int → String)
    (rebuild : (String → Option TileFile) → String → Option TileFile)
    (disk : String → Option TileFile) (z x y width height : Int) (format : String) :
    Except LodStop ((Int → Int) × (String → Option TileFile)) :=
  let path := tilePath z x y
  if (disk path).isSome then .error LodStop.outputExists
  else
    let path00 := tilePath (z + 1) (x * 2) (y * 2)
    let path01 := tilePath (z + 1) (x * 2) (y * 2 + 1)
    let path10 := tilePath (z + 1) (x * 2 + 1) (y * 2)
    let path11 := tilePath (z + 1) (x * 2 + 1) (y * 2 + 1)
    let exist00 := (disk path00).isSome
    let exist01 := (disk path01).isSome
    let exist10 := (disk path10).isSome
    let exist11 := (disk path11).isSome
    if !exist00 && !exist01 && !exist10 && !exist11 then .error LodStop.noChildren
    else if format = "grey" then
      let data : Int → Int := fun _ => 0
      match GdemPool.lodChildStep rebuild width height exist00 path00 0 0 (data, disk) with
      | .error e => .error e
      | .ok st1 =>
        match GdemPool.lodChildStep rebuild width height exist01 path01 0 1 st1 with
        | .error e => .error e
        | .ok st2 =>
          match GdemPool.lodChildStep rebuild width height exist10 path10 1 0 st2 with
          | .error e => .error e
          | .ok st3 => GdemPool.lodChildStep rebuild width height exist11 path11 1 1 st3
    else .error LodStop.notGrey

/-- Whether the copy loop of child `(cx, cy)` writes the pixel in column `c`
and row `r` of the output: `c` in `ox .. ox + w' - 1` and `r` in
`oy .. oy + h' - 1` for the origin `(ox, oy)` of the quadrant. -/
def lodCovers (width height cx cy c r : Int) : Bool :=
  decide ((lodOrigin width height cx cy).1 ≤ c ∧
    c < (lodOrigin width height cx cy).1 + GdemPool.subwidth width ∧
    (lodOrigin width height cx cy).2 ≤ r ∧
    r < (lodOrigin width height cx cy).2 + GdemPool.subheight height)

/-- The sample of the sub-tile of child `(cx, cy)` that lands on the output
pixel `(c, r)`. -/
def lodSample (width height cx cy : Int) (subdata : Int → Int) (c r : Int) : Int :=
  subdata ((r - (lodOrigin width height cx cy).2) * GdemPool.subwidth width +
    (c - (lodOrigin width height cx cy).1))

/-- The pixel `(c, r)` of the output is written by the copy loop of child
`(cx, cy)`: some sub-tile pixel `(x, y)` of the loop has destination index
`r * width + c`. -/
def lodWrites (width height cx cy c r : Int) : Prop :=
  0 ≤ c ∧ c < width ∧ ∃ x y : Int, 0 ≤ x ∧ x < GdemPool.subwidth width ∧ 0 ≤ y ∧
    y < GdemPool.subheight height ∧
    GdemPool.lodDestIndex width height cx cy x y = r * width + c

/-! ## Progress counters of the passes `tileset` and `makelod`
(main.cpp, lines 87-178 and 196-292) -/

/-- A value stored in a C++ `int`: reduced to 32 bits, two's complement. -/
def toInt32 (n : Int) : Int := (n + 2 ^ 31) % 2 ^ 32 - 2 ^ 31

/-- A value stored in an `int64_t`: reduced to 64 bits, two's complement. -/
def toInt64 (n : Int) : Int := (n + 2 ^ 63) % 2 ^ 64 - 2 ^ 63

/-- The value `tileset` stores in `state.tilesTotal`: `ztilesTotal = 2`, then
`for (int z = 1; z <= max_lod; z++) ztilesTotal = ztilesTotal * 4;`. -/
def tilesetTotal (max_lod : Int) : Int :=
  (List.range max_lod.toNat).foldl (fun ztilesTotal _ => toInt64 (ztilesTotal * 4)) 2

/-- The column loop of one level `z`, shared by `tileset` and `makelod`, as it
acts on the local counter `tilesProcessed` once the task pool is empty:
`x_num = 2 << z`, `y_num = 1 << z`; a column the pool does not contain adds
`y_num` and is skipped, any other column queues `y_num` tasks and each task
adds one under the mutex. -/
def levelProcessed (pool : GdemPool) (z : Nat) (tilesProcessed : Int) : Int :=
  let x_num : Int := toInt32 (2 * 2 ^ z)
  let y_num : Int := toInt32 (2 ^ z)
  (List.range x_num.toNat).foldl (fun tp (x : Nat) =>
    let x_step : ℚ := 360 / (x_num : ℚ)
    if !pool.contains (-180 + (x : ℚ) * x_step) (-90) (-180 + (x : ℚ) * x_step + x_step) 90 then
      toInt64 (tp + y_num)
    else
      (List.range y_num.toNat).foldl (fun tp2 _ => toInt64 (tp2 + 1)) tp) tilesProcessed

/-- The counter `tilesProcessed` at the end of `tileset`: the single level
`z = max_lod`, from zero. -/
def tilesetProcessed (pool : GdemPool) (max_lod : Int) : Int :=
  levelProcessed pool max_lod.toNat 0

/-- The value `makelod` stores in `state.tilesTotal`: `tilesTotal = 2`,
`ztilesTotal = 2`, then for `z = 1 .. max_lod - 1` the two updates
`ztilesTotal = ztilesTotal * 4; tilesTotal += ztilesTotal;`. -/
def makelodTotal (max_lod : Int) : Int :=
  ((List.range (max_lod - 1).toNat).foldl (fun (st : Int × Int) _ =>
    let ztilesTotal := toInt64 (st.2 * 4)
    (toInt64 (st.1 + ztilesTotal), ztilesTotal)) (2, 2)).1

/-- The counter `tilesProcessed` at the end of `makelod`: the levels
`z = max_lod - 1` down to `0`, from zero. -/
def makelodProcessed (pool : GdemPool) (max_lod : Int) : Int :=
  (List.range max_lod.toNat).reverse.foldl (fun tp z => levelProcessed pool z tp) 0

/-! ## Theorems: the map primitives -/

theorem mapFind_eq_none_iff {β : Type} (m : List (Int × β)) (key : Int) :
    mapFind m key = none ↔ key ∉ m.map Prod.fst := by
  induction m with
  | nil => simp [mapFind]
  | cons e rest ih =>
    obtain ⟨k, v⟩ := e
    by_cases h : k = key
    · simp [mapFind, h]
    · have h2 : ¬ key = k := fun x => h x.symm
      simp [mapFind, h, h2, ih]

theorem mapSet_of_not_mem {β : Type} (m : List (Int × β)) (key : Int) (v : β)
    (h : key ∉ m.map Prod.fst) : mapSet m key v = m ++ [(key, v)] := by
  induction m with
  | nil => simp [mapSet]
  | cons e rest ih =>
    obtain ⟨k, w⟩ := e
    simp only [List.map_cons, List.mem_cons, not_or] at h
    have h2 : ¬ k = key := fun x => h.1 x.symm
    simp [mapSet, h2, ih h.2]

theorem mapErase_of_not_mem {β : Type} (m : List (Int × β)) (key : Int)
    (h : key ∉ m.map Prod.fst) : mapErase m key = m := by
  induction m with
  | nil => simp [mapErase]
  | cons e rest ih =>
    obtain ⟨k, w⟩ := e
    simp only [List.map_cons, List.mem_cons, not_or] at h
    have h2 : ¬ k = key := fun x => h.1 x.symm
    simp [mapErase, h2, ih h.2]

theorem TileCache.insert_size {β : Type} (c : TileCache β) (key : Int) (tile : β) :
    (c.insert key tile)._size = c._size := by
  unfold TileCache.insert
  split
  · rfl
  · dsimp only
    split
    · split <;> rfl
    · rfl

theorem TileCache.run_size {β : Type} (size : Nat) (ops : List (Int × β)) :
    (TileCache.run size ops)._size = size := by
  unfold TileCache.run
  induction ops using List.reverseRecOn with
  | nil => rfl
  | append_singleton l a ih => rw [List.foldl_append]; simp [TileCache.insert_size, ih]

/-- What `insert` does for a key that is absent from a linked cache: the entry
is appended to both containers and, on overflow, the queue front is dropped
from both. -/
theorem TileCache.insert_absent {β : Type} (c : TileCache β) (key : Int) (tile : β)
    (hl : c.Linked) (habs : mapFind c._map key = none) :
    c.insert key tile =
      if c._queue.length + 1 > c._size then
        { c with _map := (c._map ++ [(key, tile)]).tail, _queue := (c._queue ++ [key]).tail }
      else
        { c with _map := c._map ++ [(key, tile)], _queue := c._queue ++ [key] } := by
  obtain ⟨hkeys, hnd⟩ := hl
  have hnm : key ∉ c._map.map Prod.fst := (mapFind_eq_none_iff _ _).1 habs
  have hnq : key ∉ c._queue := hkeys ▸ hnm
  unfold TileCache.insert
  rw [habs]
  dsimp only
  rw [mapSet_of_not_mem _ _ _ hnm, List.length_append, List.length_singleton]
  by_cases hov : c._queue.length + 1 > c._size
  · rw [if_pos hov, if_pos hov]
    rcases hm : c._map with _ | ⟨⟨k0, w0⟩, mrest⟩
    · have hq : c._queue = [] := by rw [← hkeys, hm]; rfl
      simp [hq, mapErase]
    · have hq : c._queue = k0 :: mrest.map Prod.fst := by rw [← hkeys, hm]; rfl
      rw [hq] at hnd hnq
      have hk0 : k0 ∉ (mrest ++ [(key, tile)]).map Prod.fst := by
        simp only [List.map_append, List.map_cons, List.map_nil, List.mem_append,
          List.mem_singleton, not_or]
        refine ⟨(List.nodup_cons.1 hnd).1, ?_⟩
        intro h
        exact hnq (by simp [h])
      simp [hq, mapErase, mapErase_of_not_mem _ _ hk0]
  · rw [if_neg hov, if_neg hov]

theorem TileCache.insert_linked {β : Type} (c : TileCache β) (key : Int) (tile : β)
    (hl : c.Linked) : (c.insert key tile).Linked := by
  rcases habs : mapFind c._map key with _ | b
  · rw [TileCache.insert_absent c key tile hl habs]
    obtain ⟨hkeys, hnd⟩ := hl
    have hnq : key ∉ c._queue := hkeys ▸ (mapFind_eq_none_iff _ _).1 habs
    have hnd2 : (c._queue ++ [key]).Nodup := by
      rw [List.nodup_append]
      refine ⟨hnd, List.nodup_singleton _, ?_⟩
      intro a ha hb
      rw [List.mem_singleton] at hb
      exact hnq (hb ▸ ha)
    have hk2 : (c._map ++ [(key, tile)]).map Prod.fst = c._queue ++ [key] := by
      simp [hkeys]
    split
    · refine ⟨?_, ?_⟩
      · show ((c._map ++ [(key, tile)]).tail).map Prod.fst = (c._queue ++ [key]).tail
        rw [← hk2, List.map_tail]
      · exact hnd2.sublist (List.tail_sublist _)
    · exact ⟨hk2, hnd2⟩
  · unfold TileCache.insert
    rw [habs]
    exact hl

theorem TileCache.run_snoc {β : Type} (size : Nat) (ops : List (Int × β)) (op : Int × β) :
    TileCache.run size (ops ++ [op]) = (TileCache.run size ops).insert op.1 op.2 := by
  unfold TileCache.run
  rw [List.foldl_append]
  rfl

theorem TileCache.run_linked {β : Type} (size : Nat) (ops : List (Int × β)) :
    (TileCache.run size ops).Linked := by
  induction ops using List.reverseRecOn with
  | nil => exact ⟨rfl, List.nodup_nil⟩
  | append_singleton l a ih =>
    rw [TileCache.run_snoc]
    exact TileCache.insert_linked _ _ _ ih

theorem TileCache.insert_queue_le {β : Type} (c : TileCache β) (key : Int) (tile : β)
    (hl : c.Linked) (hle : c._queue.length ≤ c._size) :
    (c.insert key tile)._queue.length ≤ c._size := by
  rcases habs : mapFind c._map key with _ | b
  · rw [TileCache.insert_absent c key tile hl habs]
    split
    · simp only [List.length_tail, List.length_append, List.length_singleton]
      omega
    · simp only [List.length_append, List.length_singleton]
      omega
  · unfold TileCache.insert
    rw [habs]
    exact hle

theorem TileCache.run_queue_le {β : Type} (size : Nat) (ops : List (Int × β)) :
    (TileCache.run size ops)._queue.length ≤ size := by
  induction ops using List.reverseRecOn with
  | nil => exact Nat.zero_le _
  | append_singleton l a ih =>
    rw [TileCache.run_snoc]
    have h := TileCache.insert_queue_le (TileCache.run size l) a.1 a.2
      (TileCache.run_linked size l) (by rw [TileCache.run_size]; exact ih)
    rwa [TileCache.run_size] at h

/-- C1: for every capacity and every sequence of `insert` calls on the empty
cache, the map and the FIFO queue hold the same number of entries, and that
number is at most the capacity. -/
theorem TileCache.size_le_capacity {β : Type} (size : Nat) (ops : List (Int × β)) :
    (TileCache.run size ops)._map.length = (TileCache.run size ops)._queue.length ∧
      (TileCache.run size ops)._queue.length ≤ size := by
  refine ⟨?_, TileCache.run_queue_le size ops⟩
  have h := (TileCache.run_linked size ops).1
  rw [← h, List.length_map]

/-- C2: inserting a key that is already present changes neither the map nor
the queue, so the key keeps the block it had; and in every cache built by
`insert` calls no key has two entries in the map or in the queue. -/
theorem TileCache.insert_present_noop {β : Type} (c : TileCache β) (key : Int) (tile b : β)
    (size : Nat) (ops : List (Int × β)) (h : c.tryGet key = some b) :
    c.insert key tile = c ∧ (c.insert key tile).tryGet key = some b ∧
      ((TileCache.run size ops)._map.map Prod.fst).Nodup ∧
      (TileCache.run size ops)._queue.Nodup := by
  have hno : c.insert key tile = c := by
    unfold TileCache.tryGet at h
    unfold TileCache.insert
    rw [h]
  refine ⟨hno, by rw [hno]; exact h, ?_, (TileCache.run_linked size ops).2⟩
  rw [(TileCache.run_linked size ops).1]
  exact (TileCache.run_linked size ops).2

theorem TileCache.insert_present_noop_witness :
    (TileCache.run 2 [((1 : Int), (10 : Nat))]).insert 1 99 = TileCache.run 2 [(1, 10)] ∧
      ((TileCache.run 2 [((1 : Int), (10 : Nat))]).insert 1 99).tryGet 1 = some 10 ∧
      ((TileCache.run 2 [((1 : Int), (10 : Nat)), (2, 20), (1, 30), (3, 40)])._map.map
        Prod.fst).Nodup ∧
      (TileCache.run 2 [((1 : Int), (10 : Nat)), (2, 20), (1, 30), (3, 40)])._queue.Nodup :=
  TileCache.insert_present_noop (TileCache.run 2 [((1 : Int), (10 : Nat))]) 1 99 10 2
    [(1, 10), (2, 20), (1, 30), (3, 40)] (by decide)

/-- The loop counts the halvings needed to bring the resolution down to the
minimum: if `k` is the first exponent with `r / 2^k ≤ m`, the loop adds `k`. -/
theorem initLodLoop_eq (m : ℚ) (k : Nat) : ∀ (fuel : Nat) (r : ℚ) (lod : Int), k < fuel →
    (∀ j : Nat, j < k → r / 2 ^ j > m) → r / 2 ^ k ≤ m →
    initLodLoop fuel r m lod = some (lod + k) := by
  induction k with
  | zero =>
    intro fuel r lod hf _ hk
    obtain ⟨f, rfl⟩ : ∃ f, fuel = f + 1 := ⟨fuel - 1, by omega⟩
    have : ¬ r > m := by simpa using hk
    simp [initLodLoop, this]
  | succ k ih =>
    intro fuel r lod hf hlt hk
    obtain ⟨f, rfl⟩ : ∃ f, fuel = f + 1 := ⟨fuel - 1, by omega⟩
    have h0 : r > m := by simpa using hlt 0 (Nat.succ_pos k)
    have hstep : ∀ j : Nat, r / 2 / 2 ^ j = r / 2 ^ (j + 1) := by
      intro j
      rw [pow_succ, div_div, mul_comm]
    rw [initLodLoop, if_pos h0, ih f (r / 2) (lod + 1) (by omega)]
    · congr 1
      push_cast
      ring
    · intro j hj
      rw [hstep]
      exact hlt (j + 1) (by omega)
    · rw [hstep]
      exact hk

/-- C4 (as the code computes it): with `max_lod = -1` and `tile_size = 256`,
`init` sets `max_lod` to 12. -/
theorem GdemPool.initMaxLod_256 (fuel : Nat) (hfuel : 13 ≤ fuel) :
    GdemPool.initMaxLod fuel (-1) 256 = some 12 := by
  have h := initLodLoop_eq (1 / 3600) 12 fuel (180 / (((256 : Int) : ℚ) - 1)) 0 (by omega)
    (by intro j hj; interval_cases j <;> norm_num) (by norm_num)
  simp only [GdemPool.initMaxLod]
  rw [h]
  norm_num

theorem GdemPool.initMaxLod_256_witness : GdemPool.initMaxLod 13 (-1) 256 = some 12 :=
  GdemPool.initMaxLod_256 13 (by decide)

/-- C4 fails as stated: for `tile_size = 256` the computed level is 12, not 7. -/
theorem GdemPool.initMaxLod_256_ne_seven :
    GdemPool.initMaxLod 64 (-1) 256 = some 12 ∧ GdemPool.initMaxLod 64 (-1) 256 ≠ some 7 := by
  have h : GdemPool.initMaxLod 64 (-1) 256 = some 12 := by
    norm_num [GdemPool.initMaxLod, initLodLoop]
  refine ⟨h, ?_⟩
  rw [h]
  decide

/-- C5 (as the code computes it): for every `tile_size ≥ 2`, with `max_lod = -1`
the loop ends and `init` sets `max_lod` to the least `L ≥ 0` such that
`180 / (tile_size - 1) / 2^L ≤ 1/3600`. -/
theorem GdemPool.initMaxLod_least (fuel : Nat) (tile_size : Int) (hts : 2 ≤ tile_size)
    (hfuel : 21 ≤ fuel) :
    ∃ L : Nat, GdemPool.initMaxLod fuel (-1) tile_size = some (L : Int) ∧
      180 / ((tile_size : ℚ) - 1) / 2 ^ L ≤ 1 / 3600 ∧
      ∀ L' : Nat, L' < L → 180 / ((tile_size : ℚ) - 1) / 2 ^ L' > 1 / 3600 := by
  have hts1 : (1 : ℚ) ≤ (tile_size : ℚ) - 1 := by
    have : (2 : ℚ) ≤ (tile_size : ℚ) := by exact_mod_cast hts
    linarith
  have hr : 180 / ((tile_size : ℚ) - 1) ≤ 180 := by
    rw [div_le_iff₀ (by linarith)]
    nlinarith
  have hex : ∃ k : Nat, 180 / ((tile_size : ℚ) - 1) / 2 ^ k ≤ 1 / 3600 := by
    refine ⟨20, ?_⟩
    rw [div_le_iff₀ (by positivity)]
    norm_num
    linarith
  classical
  have hfind := Nat.find_spec hex
  have hmin : ∀ j : Nat, j < Nat.find hex → 180 / ((tile_size : ℚ) - 1) / 2 ^ j > 1 / 3600 := by
    intro j hj
    exact not_le.1 (Nat.find_min hex hj)
  have hle : Nat.find hex ≤ 20 := by
    apply Nat.find_min'
    rw [div_le_iff₀ (by positivity)]
    norm_num
    linarith
  have h := initLodLoop_eq (1 / 3600) (Nat.find hex) fuel (180 / ((tile_size : ℚ) - 1)) 0
    (by omega) hmin hfind
  refine ⟨Nat.find hex, ?_, hfind, hmin⟩
  have hne : ¬ tile_size = 1 := by omega
  simp only [GdemPool.initMaxLod, if_neg hne]
  rw [h]
  simp

theorem GdemPool.initMaxLod_least_witness :
    ∃ L : Nat, GdemPool.initMaxLod 21 (-1) 256 = some (L : Int) ∧
      180 / (((256 : Int) : ℚ) - 1) / 2 ^ L ≤ 1 / 3600 ∧
      ∀ L' : Nat, L' < L → 180 / (((256 : Int) : ℚ) - 1) / 2 ^ L' > 1 / 3600 :=
  GdemPool.initMaxLod_least 21 256 (by decide) (by decide)

/-- C5 fails as stated: for `tile_size = 256` the computed level is 12, and
`180/255/2^12 > 1/3600` is false, while the largest `L` with the strict
inequality is 11. -/
theorem GdemPool.initMaxLod_not_largest_strict :
    GdemPool.initMaxLod 64 (-1) 256 = some 12 ∧
      ¬ ((180 : ℚ) / (256 - 1) / 2 ^ 12 > 1 / 3600) ∧
      (180 : ℚ) / (256 - 1) / 2 ^ 11 > 1 / 3600 := by
  refine ⟨?_, ?_, ?_⟩
  · norm_num [GdemPool.initMaxLod, initLodLoop]
  · norm_num
  · norm_num

/-! ## Theorems: file-name parsing in `init` -/

theorem mapFind_mapSet_self {β : Type} (m : List (Int × β)) (key : Int) (v : β) :
    mapFind (mapSet m key v) key = some v := by
  induction m with
  | nil => simp [mapSet, mapFind]
  | cons e rest ih =>
    obtain ⟨k, w⟩ := e
    by_cases h : k = key
    · simp [mapSet, mapFind, h]
    · simp [mapSet, mapFind, h, ih]

theorem strFindFrom_append (c : Char) (pre tl : List Char) (i : Nat) (h : c ∉ pre) :
    strFindFrom c (pre ++ c :: tl) i = i + pre.length := by
  induction pre generalizing i with
  | nil => simp [strFindFrom]
  | cons x rest ih =>
    simp only [List.mem_cons, not_or] at h
    have hx : ¬ x = c := fun e => h.1 e.symm
    show strFindFrom c (x :: (rest ++ c :: tl)) i = i + (x :: rest).length
    rw [strFindFrom, if_neg hx, ih (i + 1) h.2, List.length_cons]
    omega

theorem strFindFrom_not_mem (c : Char) (s : List Char) (i : Nat) (h : c ∉ s) :
    strFindFrom c s i = npos := by
  induction s generalizing i with
  | nil => rfl
  | cons x rest ih =>
    simp only [List.mem_cons, not_or] at h
    have hx : ¬ x = c := fun e => h.1 e.symm
    simp only [strFindFrom, if_neg hx, ih (i + 1) h.2]

theorem digit_cases (c : Char) (h : c.isDigit = true) :
    ∃ n : Nat, n < 10 ∧ c = Char.ofNat (48 + n) := by
  unfold Char.isDigit at h
  simp only [Bool.and_eq_true, decide_eq_true_eq] at h
  have h1 : 48 ≤ c.toNat := by
    have := h.1
    rw [ge_iff_le, UInt32.le_def] at this
    exact this
  have h2 : c.toNat ≤ 57 := by
    have := h.2
    rw [UInt32.le_def] at this
    exact this
  refine ⟨c.toNat - 48, by omega, ?_⟩
  rw [show 48 + (c.toNat - 48) = c.toNat by omega]
  exact (Char.ofNat_toNat c).symm

theorem atoi_digit_cons (c : Char) (rest : List Char) (h : c.isDigit = true) :
    atoi (c :: rest) = atoiDigits (c :: rest) 0 := by
  obtain ⟨n, hn, rfl⟩ := digit_cases c h
  interval_cases n <;> rfl

theorem atoi_two_digits (a b : Char) (ha : a.isDigit = true) (hb : b.isDigit = true) :
    atoi [a, b] = 10 * digitVal a + digitVal b := by
  rw [atoi_digit_cons a [b] ha]
  simp only [atoiDigits, ha, hb, if_true, digitVal]
  ring

theorem atoi_three_digits (a b c : Char) (ha : a.isDigit = true) (hb : b.isDigit = true)
    (hc : c.isDigit = true) :
    atoi [a, b, c] = 100 * digitVal a + 10 * digitVal b + digitVal c := by
  rw [atoi_digit_cons a [b, c] ha]
  simp only [atoiDigits, ha, hb, hc, if_true, digitVal]
  ring

/-- C6: for a 3601x3601 file whose stem is `pre ++ "_" ++ H1 d1 d2 H2 d3 d4 d5 ++ rest`
with no `_` in `pre` and decimal digits `d1 .. d5`, `init` parses
`ilat = ±(d1 d2)` (negative iff `H1 = S`) and `ilon = ±(d3 d4 d5)` (negative iff
`H2 = W`), stores the path under key `(ilat+90)*360 + (ilon+180)` and inserts
the box `[ilon, ilat, ilon+1, ilat+1]` with that key in the R-tree.  The
hemisphere letters are not validated: any letter other than `S` (`W`) is
read as north (east). -/
theorem GdemPool.initFile_cell (pool : GdemPool) (path : String) (pre rest : List Char)
    (H1 d1 d2 H2 d3 d4 d5 : Char) (hpre : '_' ∉ pre)
    (h1 : d1.isDigit = true) (h2 : d2.isDigit = true) (h3 : d3.isDigit = true)
    (h4 : d4.isDigit = true) (h5 : d5.isDigit = true)
    (hlen : pre.length + 8 + rest.length < 2 ^ 64) :
    ∃ ilat ilon : Int,
      ilat = (if H1 = 'S' then -(10 * digitVal d1 + digitVal d2)
        else 10 * digitVal d1 + digitVal d2) ∧
      ilon = (if H2 = 'W' then -(100 * digitVal d3 + 10 * digitVal d4 + digitVal d5)
        else 100 * digitVal d3 + 10 * digitVal d4 + digitVal d5) ∧
      GdemPool.initFile pool
          { path := path
            stem := pre ++ '_' :: H1 :: d1 :: d2 :: H2 :: d3 :: d4 :: d5 :: rest
            opens := true, w := 3601, h := 3601 } =
        some { pool with
          tile_map := mapSet pool.tile_map ((ilat + 90) * 360 + (ilon + 180)) path
          tile_tree := pool.tile_tree ++
            [{ bmin := ((ilon : ℚ), (ilat : ℚ)), bmax := ((ilon : ℚ) + 1, (ilat : ℚ) + 1),
               key := (ilat + 90) * 360 + (ilon + 180) }] } ∧
      mapFind (mapSet pool.tile_map ((ilat + 90) * 360 + (ilon + 180)) path)
        ((ilat + 90) * 360 + (ilon + 180)) = some path := by
  refine ⟨_, _, rfl, rfl, ?_, mapFind_mapSet_self _ _ _⟩
  have hfind : strFind (pre ++ '_' :: H1 :: d1 :: d2 :: H2 :: d3 :: d4 :: d5 :: rest) '_' =
      pre.length := by
    unfold strFind
    rw [strFindFrom_append _ _ _ _ hpre]
    omega
  have hm : ∀ j : Nat, j ≤ 5 → (pre.length + j) % 2 ^ 64 = pre.length + j := by
    intro j hj
    exact Nat.mod_eq_of_lt (by omega)
  have hat : ∀ (j : Nat) (l : List Char), strAt (pre ++ l) (pre.length + j) = l.get? j := by
    intro j l
    unfold strAt
    rw [List.get?_eq_getElem?, List.get?_eq_getElem?,
      List.getElem?_append_right (Nat.le_add_right _ _)]
    congr 1
    omega
  have hsub : ∀ (j n : Nat) (l : List Char), j ≤ l.length →
      strSubstr (pre ++ l) (pre.length + j) n = some ((l.drop j).take n) := by
    intro j n l hj
    unfold strSubstr
    rw [if_neg (by rw [List.length_append]; omega)]
    congr 2
    rw [List.drop_append_eq_append_drop, List.drop_of_length_le (Nat.le_add_right _ _)]
    simp
  have ha1 : strAt (pre ++ '_' :: H1 :: d1 :: d2 :: H2 :: d3 :: d4 :: d5 :: rest)
      (pre.length + 1) = some H1 := by rw [hat]; rfl
  have ha4 : strAt (pre ++ '_' :: H1 :: d1 :: d2 :: H2 :: d3 :: d4 :: d5 :: rest)
      (pre.length + 4) = some H2 := by rw [hat]; rfl
  have hs2 : strSubstr (pre ++ '_' :: H1 :: d1 :: d2 :: H2 :: d3 :: d4 :: d5 :: rest)
      (pre.length + 2) 2 = some [d1, d2] := by
    rw [hsub 2 2 _ (by simp)]; rfl
  have hs5 : strSubstr (pre ++ '_' :: H1 :: d1 :: d2 :: H2 :: d3 :: d4 :: d5 :: rest)
      (pre.length + 5) 3 = some [d3, d4, d5] := by
    rw [hsub 5 3 _ (by simp)]; rfl
  simp only [GdemPool.initFile, hfind, hm 1 (by omega), hm 2 (by omega), hm 4 (by omega),
    hm 5 (by omega), ha1, ha4, hs2, hs5]
  have e2 := atoi_two_digits d1 d2 h1 h2
  have e3 := atoi_three_digits d3 d4 d5 h3 h4 h5
  by_cases hS : H1 = 'S' <;> by_cases hW : H2 = 'W' <;>
    simp only [hS, hW, e2, e3, if_true, if_false, Nat.not_lt_zero, Option.bind_eq_bind,
      Option.some_bind, Int.cast_neg, Int.cast_add, Int.cast_mul, Int.cast_ofNat] <;> rfl

theorem GdemPool.initFile_cell_witness :
    ∃ p : GdemPool,
      GdemPool.initFile GdemPool.new
          { path := "ASTGTM2_N23E120_dem.tif", stem := "ASTGTM2_N23E120_dem".toList
            opens := true, w := 3601, h := 3601 } = some p ∧
      p.tile_map = [(40980, "ASTGTM2_N23E120_dem.tif")] ∧
      p.tile_tree = [{ bmin := (120, 23), bmax := (121, 24), key := 40980 }] := by
  obtain ⟨ilat, ilon, hlat, hlon, hinit, -⟩ :=
    GdemPool.initFile_cell GdemPool.new "ASTGTM2_N23E120_dem.tif" "ASTGTM2".toList
      "_dem".toList 'N' '2' '3' 'E' '1' '2' '0' (by decide) (by decide) (by decide)
      (by decide) (by decide) (by decide) (by decide)
  have e1 : ilat = 23 := by rw [hlat]; decide
  have e2 : ilon = 120 := by rw [hlon]; decide
  subst e1 e2
  refine ⟨_, hinit, ?_, ?_⟩
  · simp [GdemPool.new, mapSet]
  · simp only [GdemPool.new, List.nil_append]
    norm_num

/-- C7 fails on the code: the stem `N23E120dem` holds no `_`, `find` returns
`npos`, the test `index1 < 0` is false for a `size_t`, the index sums wrap to
`0, 1, 3, 4`, and the file is indexed as cell N23E120 under key 40980. -/
theorem GdemPool.initFile_no_underscore_indexed :
    '_' ∉ "N23E120dem".toList ∧
    ∃ p : GdemPool,
      GdemPool.initFile GdemPool.new
          { path := "N23E120dem.tif", stem := "N23E120dem".toList
            opens := true, w := 3601, h := 3601 } = some p ∧
      p.tile_map = [(40980, "N23E120dem.tif")] ∧
      p.tile_tree = [{ bmin := (120, 23), bmax := (121, 24), key := 40980 }] := by
  have h : GdemPool.initFile GdemPool.new
      { path := "N23E120dem.tif", stem := "N23E120dem".toList
        opens := true, w := 3601, h := 3601 } =
      some { tile_map := [(40980, "N23E120dem.tif")], tile_cache := TileCache.empty 20480,
             tile_tree := [{ bmin := (((120 : Int) : ℚ), ((23 : Int) : ℚ)),
                             bmax := (((120 : Int) : ℚ) + 1, ((23 : Int) : ℚ) + 1),
                             key := 40980 }] } := by
    rfl
  refine ⟨by decide, _, h, rfl, ?_⟩
  norm_num

/-! ## Theorems: `getElevation` -/

/-- When the truncation-based cell key of the point is not in `tile_map`,
`getElevation` returns `NODATA` and leaves the pool, cache included, as it was. -/
theorem GdemPool.getElevation_key_absent (files : String → Option Dataset) (pool : GdemPool)
    (lon lat : ℚ)
    (h : mapFind pool.tile_map (toInt (lat + 90) * 360 + toInt (lon + 180)) = none) :
    GdemPool.getElevation files pool lon lat = .ok (NODATA, pool) := by
  unfold GdemPool.getElevation
  simp only [h]

/-- C8 fails on the code at the east edge `lon = 180`: with only cell N01W180
indexed, no indexed box contains the point `(180, 1/2)`, yet the cell key
`90*360 + 360` computed for the point equals the key `91*360 + 0` of N01W180,
so `getElevation` opens that file, returns its sample (100) instead of
`NODATA`, and inserts a block into the cache. -/
theorem GdemPool.getElevation_east_edge_alias :
    ∃ pool : GdemPool,
      GdemPool.initFile GdemPool.new
          { path := "ASTGTM2_N01W180_dem.tif", stem := "ASTGTM2_N01W180_dem".toList
            opens := true, w := 3601, h := 3601 } = some pool ∧
      (∀ t ∈ pool.tile_tree, ¬ t.containsPoint 180 (1 / 2)) ∧
      pool.tile_cache._queue = [] ∧
      (match GdemPool.getElevation (fun _ => some (constDataset 100)) pool 180 (1 / 2) with
        | .ok (e, pool1) => e = 100 ∧ pool1.tile_cache._queue = [1448 * 5760 + 5760]
        | .error _ => False) := by
  have h : GdemPool.initFile GdemPool.new
      { path := "ASTGTM2_N01W180_dem.tif", stem := "ASTGTM2_N01W180_dem".toList
        opens := true, w := 3601, h := 3601 } =
      some { tile_map := [(32760, "ASTGTM2_N01W180_dem.tif")],
             tile_cache := TileCache.empty 20480,
             tile_tree := [{ bmin := (((-180 : Int) : ℚ), ((1 : Int) : ℚ)),
                             bmax := (((-180 : Int) : ℚ) + 1, ((1 : Int) : ℚ) + 1),
                             key := 32760 }] } := by
    rfl
  refine ⟨_, h, ?_, rfl, ?_⟩
  · intro t ht
    simp at ht
    subst ht
    norm_num [TreeEntry.containsPoint]
  · norm_num [GdemPool.getElevation, toInt, mapFind, TileCache.tryGet, TileCache.empty,
      constDataset, TileCache.insert, mapSet]

/-- C9 fails on the code at the east edge: with cells N00E179 and N01W180
indexed, the call `getElevation(-180, 1)` caches the block of key `1456*5760`
with west `-180`; the point `(180, 31/32)`, which lies in the indexed cell
N00E179, then gets block indices `(1455, 5760)`, whose key `1455*5760 + 5760`
is the same, so the cached block is used and the index read is
`338*226 + 1296000 = 1372388`, outside the `226*226` buffer. -/
theorem GdemPool.getElevation_reads_outside_block :
    ∃ pool : GdemPool,
      GdemPool.initFiles GdemPool.new
          [{ path := "ASTGTM2_N00E179_dem.tif", stem := "ASTGTM2_N00E179_dem".toList
             opens := true, w := 3601, h := 3601 },
           { path := "ASTGTM2_N01W180_dem.tif", stem := "ASTGTM2_N01W180_dem".toList
             opens := true, w := 3601, h := 3601 }] = some pool ∧
      (∃ t ∈ pool.tile_tree, t.containsPoint 180 (31 / 32)) ∧
      (match GdemPool.getElevation (fun _ => some (constDataset 100)) pool (-180) 1 with
        | .ok (_, pool1) =>
            GdemPool.getElevation (fun _ => some (constDataset 100)) pool1 180 (31 / 32) =
              .error (Fault.outOfBounds 1372388)
        | .error _ => False) ∧
      ¬ ((1372388 : Int) < 226 * 226) := by
  have h : GdemPool.initFiles GdemPool.new
      [{ path := "ASTGTM2_N00E179_dem.tif", stem := "ASTGTM2_N00E179_dem".toList
         opens := true, w := 3601, h := 3601 },
       { path := "ASTGTM2_N01W180_dem.tif", stem := "ASTGTM2_N01W180_dem".toList
         opens := true, w := 3601, h := 3601 }] =
      some { tile_map := [(32759, "ASTGTM2_N00E179_dem.tif"),
                          (32760, "ASTGTM2_N01W180_dem.tif")],
             tile_cache := TileCache.empty 20480,
             tile_tree := [{ bmin := (((179 : Int) : ℚ), ((0 : Int) : ℚ)),
                             bmax := (((179 : Int) : ℚ) + 1, ((0 : Int) : ℚ) + 1),
                             key := 32759 },
                           { bmin := (((-180 : Int) : ℚ), ((1 : Int) : ℚ)),
                             bmax := (((-180 : Int) : ℚ) + 1, ((1 : Int) : ℚ) + 1),
                             key := 32760 }] } := by
    rfl
  refine ⟨_, h, ?_, ?_, by decide⟩
  · refine ⟨_, List.mem_cons_self _ _, ?_⟩
    norm_num [TreeEntry.containsPoint]
  · norm_num [GdemPool.getElevation, toInt, mapFind, TileCache.tryGet, TileCache.empty,
      constDataset, TileCache.insert, mapSet]

/-! ## Theorems: `makeElevation` -/

theorem except_bind_ok {ε α β : Type} (x : Except ε α) (g : α → Except ε β) (r : β)
    (h : x >>= g = .ok r) : ∃ a, x = .ok a ∧ g a = .ok r := by
  cases x with
  | error e => cases h
  | ok a => exact ⟨a, rfl, h⟩

/-- A completed loop over `0 .. n-1` passes through step `i`: the state before
it, the step itself, and the remaining steps `i+1 .. n-1`. -/
theorem foldlM_range_split {ε σ : Type} (f : σ → Nat → Except ε σ) (n i : Nat) (hi : i < n)
    (s r : σ) (h : (List.range n).foldlM f s = .ok r) :
    ∃ s1 s2, (List.range i).foldlM f s = .ok s1 ∧ f s1 i = .ok s2 ∧
      (List.range' (i + 1) (n - i - 1)).foldlM f s2 = .ok r := by
  have hsplit : List.range n = List.range i ++ i :: List.range' (i + 1) (n - i - 1) := by
    rw [List.range_eq_range', List.range_eq_range', ← List.range'_succ]
    have := List.range'_append 0 i (n - i - 1 + 1) 1
    simp only [Nat.zero_add, Nat.one_mul] at this
    rw [this]
    congr 1
    omega
  rw [hsplit, List.foldlM_append] at h
  obtain ⟨s1, h1, h2⟩ := except_bind_ok _ _ _ h
  rw [List.foldlM_cons] at h2
  obtain ⟨s2, h3, h4⟩ := except_bind_ok _ _ _ h2
  exact ⟨s1, s2, h1, h3, h4⟩

/-- A completed loop keeps every observation that each of its steps keeps. -/
theorem foldlM_frame {ε σ α γ : Type} (f : σ → α → Except ε σ) (g : σ → γ) (l : List α)
    (hstep : ∀ s a r, a ∈ l → f s a = .ok r → g r = g s) (s r : σ)
    (h : l.foldlM f s = .ok r) : g r = g s := by
  induction l generalizing s with
  | nil =>
    cases h
    rfl
  | cons a rest ih =>
    rw [List.foldlM_cons] at h
    obtain ⟨s1, h1, h2⟩ := except_bind_ok _ _ _ h
    rw [ih (fun s a r ha => hstep s a r (List.mem_cons_of_mem _ ha)) s1 h2]
    exact hstep s a s1 (List.mem_cons_self _ _) h1

theorem GdemPool.makeElevationPixel_ok (files : String → Option Dataset)
    (west north xStep yStep : ℚ) (width : Int) (y x : Nat)
    (st r : (Int → Int) × GdemPool)
    (h : GdemPool.makeElevationPixel files west north xStep yStep width y st x = .ok r) :
    ∃ e pool1, GdemPool.getElevation files st.2 (west + x * xStep) (north - y * yStep) =
        .ok (e, pool1) ∧
      r.1 = Function.update st.1 ((y : Int) * width + (x : Int))
        (if e ≤ NODATA then 0 else e) := by
  unfold GdemPool.makeElevationPixel at h
  dsimp only at h
  split at h
  · cases h
  · rename_i e pool1 heq
    cases h
    exact ⟨e, pool1, heq, rfl⟩

theorem GdemPool.makeElevationRow_frame (files : String → Option Dataset)
    (west north xStep yStep : ℚ) (width : Int) (y : Nat) (idx : Int)
    (hidx : ∀ x : Nat, (x : Int) < width → (y : Int) * width + (x : Int) ≠ idx)
    (st r : (Int → Int) × GdemPool)
    (h : GdemPool.makeElevationRow files west north xStep yStep width st y = .ok r) :
    r.1 idx = st.1 idx := by
  unfold GdemPool.makeElevationRow at h
  refine foldlM_frame _ (fun s : (Int → Int) × GdemPool => s.1 idx) _ ?_ st r h
  intro s a r1 ha hr
  obtain ⟨e, pool1, -, hupd⟩ := GdemPool.makeElevationPixel_ok _ _ _ _ _ _ _ _ _ _ hr
  have ha2 : (a : Int) < width := by
    rw [List.mem_range] at ha
    omega
  show r1.1 idx = s.1 idx
  rw [hupd, Function.update_noteq (hidx a ha2).symm]

/-- C10 (as the code computes it): when `makeElevation` returns, for every
pixel `(x, y)` with `0 ≤ x < W`, `0 ≤ y < H` the buffer holds at `y*W + x` the
value `0` if `e ≤ NODATA` and `e` otherwise, where `e` is what `getElevation`
returned at `lon = west + x*(east-west)/(W-1)`, `lat = north - y*(north-south)/(H-1)`
when called in the pool state reached after rows `0 .. y-1` and pixels
`0 .. x-1` of row `y`. -/
theorem GdemPool.makeElevation_writes (files : String → Option Dataset) (pool pool2 : GdemPool)
    (west south east north : ℚ) (W H : Int) (data out : Int → Int) (x y : Nat)
    (hW : 2 ≤ W) (hH : 2 ≤ H) (hx : (x : Int) < W) (hy : (y : Int) < H)
    (hrun : GdemPool.makeElevation files pool west south east north W H data =
      .ok (out, pool2)) :
    ∃ (rowStart pixStart : (Int → Int) × GdemPool) (e : Int) (pool1 : GdemPool),
      (List.range y).foldlM
        (GdemPool.makeElevationRow files west north ((east - west) / ((W : ℚ) - 1))
          ((north - south) / ((H : ℚ) - 1)) W) (data, pool) = .ok rowStart ∧
      (List.range x).foldlM
        (GdemPool.makeElevationPixel files west north ((east - west) / ((W : ℚ) - 1))
          ((north - south) / ((H : ℚ) - 1)) W y) rowStart = .ok pixStart ∧
      GdemPool.getElevation files pixStart.2 (west + x * (east - west) / ((W : ℚ) - 1))
        (north - y * (north - south) / ((H : ℚ) - 1)) = .ok (e, pool1) ∧
      out ((y : Int) * W + (x : Int)) = if e ≤ -9999 then 0 else e := by
  unfold GdemPool.makeElevation at hrun
  dsimp only at hrun
  obtain ⟨rowStart, rowEnd, hrows, hrow, hrest⟩ :=
    foldlM_range_split _ H.toNat y (by omega) _ _ hrun
  have hrow2 := hrow
  unfold GdemPool.makeElevationRow at hrow2
  obtain ⟨pixStart, pixEnd, hpixs, hpix, hprest⟩ :=
    foldlM_range_split _ W.toNat x (by omega) _ _ hrow2
  obtain ⟨e, pool1, hget, hupd⟩ := GdemPool.makeElevationPixel_ok _ _ _ _ _ _ _ _ _ _ hpix
  refine ⟨rowStart, pixStart, e, pool1, hrows, hpixs, ?_, ?_⟩
  · rw [mul_div_assoc, mul_div_assoc]
    exact hget
  · have h1 : out ((y : Int) * W + (x : Int)) = rowEnd.1 ((y : Int) * W + (x : Int)) := by
      refine foldlM_frame _ (fun s : (Int → Int) × GdemPool => s.1 ((y : Int) * W + (x : Int)))
        _ ?_ rowEnd (out, pool2) hrest
      intro s a r ha hr
      refine GdemPool.makeElevationRow_frame _ _ _ _ _ _ a _ ?_ s r hr
      intro x2 hx2
      rw [List.mem_range'_1] at ha
      have hay : (y : Int) + 1 ≤ (a : Int) := by omega
      have hx2n : (0 : Int) ≤ (x2 : Int) := Int.natCast_nonneg _
      nlinarith
    have h2 : rowEnd.1 ((y : Int) * W + (x : Int)) = pixEnd.1 ((y : Int) * W + (x : Int)) := by
      refine foldlM_frame _ (fun s : (Int → Int) × GdemPool => s.1 ((y : Int) * W + (x : Int)))
        _ ?_ pixEnd rowEnd hprest
      intro s a r ha hr
      obtain ⟨e2, p2, -, hupd2⟩ := GdemPool.makeElevationPixel_ok _ _ _ _ _ _ _ _ _ _ hr
      rw [List.mem_range'_1] at ha
      show r.1 _ = s.1 _
      rw [hupd2, Function.update_noteq]
      omega
    rw [h1, h2, hupd, Function.update_same]
    rfl

theorem GdemPool.makeElevation_writes_witness :
    ∃ (rowStart pixStart : (Int → Int) × GdemPool) (e : Int) (pool1 : GdemPool),
      (List.range 1).foldlM
        (GdemPool.makeElevationRow (fun _ => some (constDataset 100)) (1 / 64) (1 / 32)
          ((1 / 32 - 1 / 64) / (((2 : Int) : ℚ) - 1)) ((1 / 32 - 1 / 64) / (((2 : Int) : ℚ) - 1)) 2)
        (fun _ => 7,
          { tile_map := [(32580, "ASTGTM2_N00E000_dem.tif")],
            tile_cache := TileCache.empty 20480, tile_tree := [] }) = .ok rowStart ∧
      (List.range 1).foldlM
        (GdemPool.makeElevationPixel (fun _ => some (constDataset 100)) (1 / 64) (1 / 32)
          ((1 / 32 - 1 / 64) / (((2 : Int) : ℚ) - 1)) ((1 / 32 - 1 / 64) / (((2 : Int) : ℚ) - 1)) 2 1)
        rowStart = .ok pixStart ∧
      GdemPool.getElevation (fun _ => some (constDataset 100)) pixStart.2
        (1 / 64 + (1 : Nat) * (1 / 32 - 1 / 64) / (((2 : Int) : ℚ) - 1))
        (1 / 32 - (1 : Nat) * (1 / 32 - 1 / 64) / (((2 : Int) : ℚ) - 1)) = .ok (e, pool1) ∧
      Function.update (Function.update (Function.update (Function.update (fun _ => (7 : Int))
        0 100) 1 100) 2 100) 3 100 (((1 : Nat) : Int) * 2 + ((1 : Nat) : Int)) =
        if e ≤ -9999 then 0 else e :=
  GdemPool.makeElevation_writes (fun _ => some (constDataset 100))
    { tile_map := [(32580, "ASTGTM2_N00E000_dem.tif")], tile_cache := TileCache.empty 20480,
      tile_tree := [] }
    { tile_map := [(32580, "ASTGTM2_N00E000_dem.tif")],
      tile_cache := { _size := 20480,
                      _map := [(8297280, { west := 0, south := 0, data := fun _ => 100 })],
                      _queue := [8297280] },
      tile_tree := [] }
    (1 / 64) (1 / 64) (1 / 32) (1 / 32) 2 2 (fun _ => 7)
    (Function.update (Function.update (Function.update (Function.update (fun _ => 7)
      0 100) 1 100) 2 100) 3 100)
    1 1 (by decide) (by decide) (by decide) (by decide)
    (by
      norm_num [GdemPool.makeElevation, GdemPool.makeElevationRow, GdemPool.makeElevationPixel,
        GdemPool.getElevation, toInt, mapFind, TileCache.tryGet, TileCache.empty, constDataset,
        TileCache.insert, mapSet, NODATA, List.range, List.range.loop, bind, Except.bind, pure,
        Except.pure])

/-- C10 fails as stated: with every source sample equal to `-10000`, the
first pixel of a 2x2 grid gets `e = -10000` from `getElevation`, which is not
`NODATA`, and `makeElevation` writes `0` for it. -/
theorem GdemPool.makeElevation_zeroes_below_nodata :
    (match GdemPool.getElevation (fun _ => some (constDataset (-10000)))
        { tile_map := [(32580, "ASTGTM2_N00E000_dem.tif")], tile_cache := TileCache.empty 20480,
          tile_tree := [] } (1 / 64) (1 / 32) with
      | .ok (e, _) => e = -10000
      | .error _ => False) ∧
    (match GdemPool.makeElevation (fun _ => some (constDataset (-10000)))
        { tile_map := [(32580, "ASTGTM2_N00E000_dem.tif")], tile_cache := TileCache.empty 20480,
          tile_tree := [] } (1 / 64) (1 / 64) (1 / 32) (1 / 32) 2 2 (fun _ => 7) with
      | .ok (out, _) => out 0 = 0
      | .error _ => False) ∧
    (-10000 : Int) ≠ NODATA := by
  refine ⟨?_, ?_, by decide⟩
  · norm_num [GdemPool.getElevation, toInt, mapFind, TileCache.tryGet, TileCache.empty,
      constDataset, TileCache.insert, mapSet]
  · norm_num [GdemPool.makeElevation, GdemPool.makeElevationRow, GdemPool.makeElevationPixel,
      GdemPool.getElevation, toInt, mapFind, TileCache.tryGet, TileCache.empty, constDataset,
      TileCache.insert, mapSet, NODATA, List.range, List.range.loop, bind, Except.bind, pure,
      Except.pure]

/-! ## Theorems: tile bounds and geotransform -/

/-- C11: for every tile `(z, x, y)` and `W, H ≥ 2`, the geotransform computed by
`makeLodImage` is the one computed by `makeElevationImage`, and it satisfies
`g[0] + g[1]*0.5 = west`, `g[3] + g[5]*0.5 = north`, `g[2] = g[4] = 0`; the
pixel pitch spans the tile: `g[1]*(W-1) = east - west`, `g[5]*(H-1) = south - north`. -/
theorem GdemPool.geoTransform_pixel_center (z : Nat) (x y W H : Int) (hW : 2 ≤ W)
    (hH : 2 ≤ H) :
    GdemPool.makeLodImage_geoTransform z x y W H =
        GdemPool.makeElevationImage_tileGeoTransform z x y W H ∧
      (GdemPool.makeElevationImage_tileGeoTransform z x y W H).g0 +
          (GdemPool.makeElevationImage_tileGeoTransform z x y W H).g1 * 0.5 =
        (GdemPool.tileBounds z x y).west ∧
      (GdemPool.makeElevationImage_tileGeoTransform z x y W H).g3 +
          (GdemPool.makeElevationImage_tileGeoTransform z x y W H).g5 * 0.5 =
        (GdemPool.tileBounds z x y).north ∧
      (GdemPool.makeElevationImage_tileGeoTransform z x y W H).g2 = 0 ∧
      (GdemPool.makeElevationImage_tileGeoTransform z x y W H).g4 = 0 ∧
      (GdemPool.makeElevationImage_tileGeoTransform z x y W H).g1 * ((W : ℚ) - 1) =
        (GdemPool.tileBounds z x y).east - (GdemPool.tileBounds z x y).west ∧
      (GdemPool.makeElevationImage_tileGeoTransform z x y W H).g5 * ((H : ℚ) - 1) =
        (GdemPool.tileBounds z x y).south - (GdemPool.tileBounds z x y).north := by
  have hW1 : ((W : ℚ) - 1) ≠ 0 := by
    have : (2 : ℚ) ≤ (W : ℚ) := by exact_mod_cast hW
    linarith
  have hH1 : ((H : ℚ) - 1) ≠ 0 := by
    have : (2 : ℚ) ≤ (H : ℚ) := by exact_mod_cast hH
    linarith
  refine ⟨rfl, ?_, ?_, rfl, rfl, ?_, ?_⟩
  · simp only [GdemPool.makeElevationImage_tileGeoTransform,
      GdemPool.makeElevationImage_geoTransform]
    ring
  · simp only [GdemPool.makeElevationImage_tileGeoTransform,
      GdemPool.makeElevationImage_geoTransform]
    ring
  · simp only [GdemPool.makeElevationImage_tileGeoTransform,
      GdemPool.makeElevationImage_geoTransform, Int.cast_sub, Int.cast_one]
    exact div_mul_cancel₀ _ hW1
  · simp only [GdemPool.makeElevationImage_tileGeoTransform,
      GdemPool.makeElevationImage_geoTransform, Int.cast_sub, Int.cast_one]
    exact div_mul_cancel₀ _ hH1

theorem GdemPool.geoTransform_pixel_center_witness :
    GdemPool.makeLodImage_geoTransform 2 5 1 256 256 =
        GdemPool.makeElevationImage_tileGeoTransform 2 5 1 256 256 ∧
      (GdemPool.makeElevationImage_tileGeoTransform 2 5 1 256 256).g0 +
          (GdemPool.makeElevationImage_tileGeoTransform 2 5 1 256 256).g1 * 0.5 =
        (GdemPool.tileBounds 2 5 1).west ∧
      (GdemPool.makeElevationImage_tileGeoTransform 2 5 1 256 256).g3 +
          (GdemPool.makeElevationImage_tileGeoTransform 2 5 1 256 256).g5 * 0.5 =
        (GdemPool.tileBounds 2 5 1).north ∧
      (GdemPool.makeElevationImage_tileGeoTransform 2 5 1 256 256).g2 = 0 ∧
      (GdemPool.makeElevationImage_tileGeoTransform 2 5 1 256 256).g4 = 0 ∧
      (GdemPool.makeElevationImage_tileGeoTransform 2 5 1 256 256).g1 * (((256 : Int) : ℚ) - 1) =
        (GdemPool.tileBounds 2 5 1).east - (GdemPool.tileBounds 2 5 1).west ∧
      (GdemPool.makeElevationImage_tileGeoTransform 2 5 1 256 256).g5 * (((256 : Int) : ℚ) - 1) =
        (GdemPool.tileBounds 2 5 1).south - (GdemPool.tileBounds 2 5 1).north :=
  GdemPool.geoTransform_pixel_center 2 5 1 256 256 (by decide) (by decide)

theorem tileStep_pos (z : Nat) : (0 : ℚ) < 180 / ((2 ^ z : Int) : ℚ) := by
  have : (0 : ℚ) < ((2 ^ z : Int) : ℚ) := by
    push_cast
    positivity
  positivity

theorem tileStep_mul (z : Nat) : 180 / ((2 ^ z : Int) : ℚ) * (2 : ℚ) ^ z = 180 := by
  push_cast
  have : (0 : ℚ) < (2 : ℚ) ^ z := by positivity
  field_simp

/-- C12: for every level `z`, column `0 ≤ x < 2^(z+1)` and row `0 ≤ y < 2^z`, the
bounds computed by `makeElevationImage(z, x, y)` map back to the same tile,
`floor((west + 180)/step) = x` and `floor((90 - north)/step) = y`, and lie
within `[-180, 180] x [-90, 90]`. -/
theorem GdemPool.tileBounds_roundtrip (z : Nat) (x y : Int) (hx0 : 0 ≤ x)
    (hx1 : x < 2 ^ (z + 1)) (hy0 : 0 ≤ y) (hy1 : y < 2 ^ z) :
    enclosingTile z (GdemPool.tileBounds z x y).west (GdemPool.tileBounds z x y).north = (x, y) ∧
      -180 ≤ (GdemPool.tileBounds z x y).west ∧
      (GdemPool.tileBounds z x y).west ≤ (GdemPool.tileBounds z x y).east ∧
      (GdemPool.tileBounds z x y).east ≤ 180 ∧
      -90 ≤ (GdemPool.tileBounds z x y).south ∧
      (GdemPool.tileBounds z x y).south ≤ (GdemPool.tileBounds z x y).north ∧
      (GdemPool.tileBounds z x y).north ≤ 90 := by
  have hs := tileStep_pos z
  have hm := tileStep_mul z
  have hx0q : (0 : ℚ) ≤ (x : ℚ) := by exact_mod_cast hx0
  have hy0q : (0 : ℚ) ≤ (y : ℚ) := by exact_mod_cast hy0
  have hx1q : (x : ℚ) + 1 ≤ 2 * (2 : ℚ) ^ z := by
    have h : x + 1 ≤ 2 ^ (z + 1) := by omega
    have h2 : ((x + 1 : Int) : ℚ) ≤ ((2 ^ (z + 1) : Int) : ℚ) := by exact_mod_cast h
    push_cast at h2
    rw [pow_succ] at h2
    linarith
  have hy1q : (y : ℚ) + 1 ≤ (2 : ℚ) ^ z := by
    have h : y + 1 ≤ 2 ^ z := by omega
    have h2 : ((y + 1 : Int) : ℚ) ≤ ((2 ^ z : Int) : ℚ) := by exact_mod_cast h
    push_cast at h2
    linarith
  simp only [GdemPool.tileBounds, enclosingTile]
  refine ⟨?_, ?_, ?_, ?_, ?_, ?_, ?_⟩
  · have e1 : (-180 + (x : ℚ) * (180 / ((2 ^ z : Int) : ℚ)) + 180) / (180 / ((2 ^ z : Int) : ℚ)) =
        ((x : Int) : ℚ) := by
      field_simp
    have e2 : (90 - (90 - (y : ℚ) * (180 / ((2 ^ z : Int) : ℚ)))) / (180 / ((2 ^ z : Int) : ℚ)) =
        ((y : Int) : ℚ) := by
      field_simp
    rw [e1, e2, Int.floor_intCast, Int.floor_intCast]
  · nlinarith
  · linarith
  · nlinarith
  · nlinarith
  · linarith
  · nlinarith

theorem GdemPool.tileBounds_roundtrip_witness :
    enclosingTile 2 (GdemPool.tileBounds 2 5 1).west (GdemPool.tileBounds 2 5 1).north = (5, 1) ∧
      -180 ≤ (GdemPool.tileBounds 2 5 1).west ∧
      (GdemPool.tileBounds 2 5 1).west ≤ (GdemPool.tileBounds 2 5 1).east ∧
      (GdemPool.tileBounds 2 5 1).east ≤ 180 ∧
      -90 ≤ (GdemPool.tileBounds 2 5 1).south ∧
      (GdemPool.tileBounds 2 5 1).south ≤ (GdemPool.tileBounds 2 5 1).north ∧
      (GdemPool.tileBounds 2 5 1).north ≤ 90 :=
  GdemPool.tileBounds_roundtrip 2 5 1 (by decide) (by decide) (by decide) (by decide)

theorem tileStep_succ (z : Nat) :
    180 / ((2 ^ (z + 1) : Int) : ℚ) = 180 / ((2 ^ z : Int) : ℚ) / 2 := by
  push_cast
  rw [pow_succ, div_div]

/-- What the child bounds are, in terms of the parent bounds and `step = 180/2^z`. -/
theorem GdemPool.lodChild_bounds (z : Nat) (x y cx cy : Int) :
    (GdemPool.tileBounds (z + 1) (x * 2 + cx) (y * 2 + cy)).west =
        (GdemPool.tileBounds z x y).west + cx * (180 / ((2 ^ z : Int) : ℚ) / 2) ∧
      (GdemPool.tileBounds (z + 1) (x * 2 + cx) (y * 2 + cy)).east =
        (GdemPool.tileBounds z x y).west + (cx + 1) * (180 / ((2 ^ z : Int) : ℚ) / 2) ∧
      (GdemPool.tileBounds (z + 1) (x * 2 + cx) (y * 2 + cy)).north =
        (GdemPool.tileBounds z x y).north - cy * (180 / ((2 ^ z : Int) : ℚ) / 2) ∧
      (GdemPool.tileBounds (z + 1) (x * 2 + cx) (y * 2 + cy)).south =
        (GdemPool.tileBounds z x y).north - (cy + 1) * (180 / ((2 ^ z : Int) : ℚ) / 2) := by
  simp only [GdemPool.tileBounds, tileStep_succ]
  push_cast
  refine ⟨by ring, by ring, by ring, by ring⟩

/-- C13: for every tile `(z, x, y)` and `cx, cy ∈ {0, 1}`, the child
`(z+1, 2x+cx, 2y+cy)` read by `makeLodImage` has west `= parent.west + cx*step/2`,
north `= parent.north - cy*step/2` and side `step/2`, so `(0,0)` is the NW,
`(1,0)` the NE, `(0,1)` the SW and `(1,1)` the SE quadrant; the four children
cover the parent rectangle and no point inside one child lies in another. -/
theorem GdemPool.lodChild_quadrant (z : Nat) (x y cx cy : Int) (hcx : cx = 0 ∨ cx = 1)
    (hcy : cy = 0 ∨ cy = 1) :
    (GdemPool.tileBounds (GdemPool.lodChild z x y cx cy).1 (GdemPool.lodChild z x y cx cy).2.1
        (GdemPool.lodChild z x y cx cy).2.2).west =
        (GdemPool.tileBounds z x y).west + cx * (180 / (2 : ℚ) ^ z / 2) ∧
      (GdemPool.tileBounds (GdemPool.lodChild z x y cx cy).1 (GdemPool.lodChild z x y cx cy).2.1
        (GdemPool.lodChild z x y cx cy).2.2).north =
        (GdemPool.tileBounds z x y).north - cy * (180 / (2 : ℚ) ^ z / 2) ∧
      (GdemPool.tileBounds (GdemPool.lodChild z x y cx cy).1 (GdemPool.lodChild z x y cx cy).2.1
        (GdemPool.lodChild z x y cx cy).2.2).east =
        (GdemPool.tileBounds (GdemPool.lodChild z x y cx cy).1
          (GdemPool.lodChild z x y cx cy).2.1 (GdemPool.lodChild z x y cx cy).2.2).west +
          180 / (2 : ℚ) ^ z / 2 ∧
      (GdemPool.tileBounds (GdemPool.lodChild z x y cx cy).1 (GdemPool.lodChild z x y cx cy).2.1
        (GdemPool.lodChild z x y cx cy).2.2).south =
        (GdemPool.tileBounds (GdemPool.lodChild z x y cx cy).1
          (GdemPool.lodChild z x y cx cy).2.1 (GdemPool.lodChild z x y cx cy).2.2).north -
          180 / (2 : ℚ) ^ z / 2 ∧
      (∀ lon lat : ℚ, (GdemPool.tileBounds z x y).contains lon lat ↔
        ∃ dx dy : Int, (dx = 0 ∨ dx = 1) ∧ (dy = 0 ∨ dy = 1) ∧
          (GdemPool.tileBounds (GdemPool.lodChild z x y dx dy).1
            (GdemPool.lodChild z x y dx dy).2.1
            (GdemPool.lodChild z x y dx dy).2.2).contains lon lat) ∧
      (∀ (lon lat : ℚ) (dx dy : Int), (dx = 0 ∨ dx = 1) → (dy = 0 ∨ dy = 1) →
        (GdemPool.tileBounds (GdemPool.lodChild z x y cx cy).1
          (GdemPool.lodChild z x y cx cy).2.1
          (GdemPool.lodChild z x y cx cy).2.2).interior lon lat →
        (GdemPool.tileBounds (GdemPool.lodChild z x y dx dy).1
          (GdemPool.lodChild z x y dx dy).2.1
          (GdemPool.lodChild z x y dx dy).2.2).contains lon lat →
        dx = cx ∧ dy = cy) := by
  have hs := tileStep_pos z
  have hc : ((2 ^ z : Int) : ℚ) = (2 : ℚ) ^ z := by push_cast; rfl
  rw [hc] at hs
  have hb := fun dx dy : Int => GdemPool.lodChild_bounds z x y dx dy
  simp only [hc] at hb
  have hpe : (GdemPool.tileBounds z x y).east =
      (GdemPool.tileBounds z x y).west + 2 * (180 / (2 : ℚ) ^ z / 2) := by
    simp only [GdemPool.tileBounds, hc]
    ring
  have hps : (GdemPool.tileBounds z x y).south =
      (GdemPool.tileBounds z x y).north - 2 * (180 / (2 : ℚ) ^ z / 2) := by
    simp only [GdemPool.tileBounds, hc]
    ring
  simp only [GdemPool.lodChild]
  refine ⟨(hb cx cy).1, (hb cx cy).2.2.1, ?_, ?_, ?_, ?_⟩
  · rw [(hb cx cy).2.1, (hb cx cy).1]
    ring
  · rw [(hb cx cy).2.2.2, (hb cx cy).2.2.1]
    ring
  · intro lon lat
    simp only [TileBounds.contains, hpe, hps]
    constructor
    · rintro ⟨h1, h2, h3, h4⟩
      by_cases hmx : lon ≤ (GdemPool.tileBounds z x y).west + 180 / (2 : ℚ) ^ z / 2
      · by_cases hmy : (GdemPool.tileBounds z x y).north - 180 / (2 : ℚ) ^ z / 2 ≤ lat
        · refine ⟨0, 0, Or.inl rfl, Or.inl rfl, ?_⟩
          rw [(hb 0 0).1, (hb 0 0).2.1, (hb 0 0).2.2.1, (hb 0 0).2.2.2]
          push_cast
          refine ⟨by linarith, by linarith, by linarith, by linarith⟩
        · refine ⟨0, 1, Or.inl rfl, Or.inr rfl, ?_⟩
          rw [(hb 0 1).1, (hb 0 1).2.1, (hb 0 1).2.2.1, (hb 0 1).2.2.2]
          push_cast
          refine ⟨by linarith, by linarith, by linarith, by linarith⟩
      · by_cases hmy : (GdemPool.tileBounds z x y).north - 180 / (2 : ℚ) ^ z / 2 ≤ lat
        · refine ⟨1, 0, Or.inr rfl, Or.inl rfl, ?_⟩
          rw [(hb 1 0).1, (hb 1 0).2.1, (hb 1 0).2.2.1, (hb 1 0).2.2.2]
          push_cast
          refine ⟨by linarith, by linarith, by linarith, by linarith⟩
        · refine ⟨1, 1, Or.inr rfl, Or.inr rfl, ?_⟩
          rw [(hb 1 1).1, (hb 1 1).2.1, (hb 1 1).2.2.1, (hb 1 1).2.2.2]
          push_cast
          refine ⟨by linarith, by linarith, by linarith, by linarith⟩
    · rintro ⟨dx, dy, hdx, hdy, h⟩
      rw [(hb dx dy).1, (hb dx dy).2.1, (hb dx dy).2.2.1, (hb dx dy).2.2.2] at h
      obtain ⟨h1, h2, h3, h4⟩ := h
      rcases hdx with rfl | rfl <;> rcases hdy with rfl | rfl <;> push_cast at h1 h2 h3 h4 <;>
        exact ⟨by linarith, by linarith, by linarith, by linarith⟩
  · intro lon lat dx dy hdx hdy hin hcon
    simp only [TileBounds.interior, TileBounds.contains] at hin hcon
    rw [(hb cx cy).1, (hb cx cy).2.1, (hb cx cy).2.2.1, (hb cx cy).2.2.2] at hin
    rw [(hb dx dy).1, (hb dx dy).2.1, (hb dx dy).2.2.1, (hb dx dy).2.2.2] at hcon
    obtain ⟨a1, a2, a3, a4⟩ := hin
    obtain ⟨b1, b2, b3, b4⟩ := hcon
    constructor
    · rcases hcx with rfl | rfl <;> rcases hdx with rfl | rfl <;> push_cast at a1 a2 b1 b2 <;>
        first | rfl | (exfalso; linarith)
    · rcases hcy with rfl | rfl <;> rcases hdy with rfl | rfl <;> push_cast at a3 a4 b3 b4 <;>
        first | rfl | (exfalso; linarith)

theorem GdemPool.lodChild_quadrant_witness :
    (GdemPool.tileBounds (GdemPool.lodChild 1 2 0 1 0).1 (GdemPool.lodChild 1 2 0 1 0).2.1
        (GdemPool.lodChild 1 2 0 1 0).2.2).west =
        (GdemPool.tileBounds 1 2 0).west + 1 * (180 / (2 : ℚ) ^ 1 / 2) :=
  (GdemPool.lodChild_quadrant 1 2 0 1 0 (by decide) (by decide)).1

/-! ## Theorems: `contains` -/

theorem GdemPool.contains_iff (pool : GdemPool) (west south east north : ℚ) :
    pool.contains west south east north = true ↔
      ∃ t ∈ pool.tile_tree, t.bmin.1 ≤ east ∧ west ≤ t.bmax.1 ∧ t.bmin.2 ≤ north ∧
        south ≤ t.bmax.2 := by
  unfold GdemPool.contains treeSearch
  simp only [gt_iff_lt, List.length_pos, ne_eq, ite_eq_left_iff, not_not,
    Bool.false_eq_true, imp_false]
  constructor
  · intro h
    obtain ⟨a, ha⟩ := List.exists_mem_of_ne_nil _ h
    rw [List.mem_filter] at ha
    exact ⟨a, ha.1, by simpa using ha.2⟩
  · rintro ⟨t, ht, hov⟩
    have ha : t ∈ List.filter (fun t : TreeEntry =>
        decide (t.bmin.1 ≤ east ∧ west ≤ t.bmax.1 ∧ t.bmin.2 ≤ north ∧ south ≤ t.bmax.2))
        pool.tile_tree := by
      rw [List.mem_filter]
      exact ⟨ht, by simpa using hov⟩
    exact List.ne_nil_of_mem ha

theorem mapSet_ne_nil {β : Type} (m : List (Int × β)) (key : Int) (v : β) :
    mapSet m key v ≠ [] := by
  cases m with
  | nil => simp [mapSet]
  | cons e rest =>
    obtain ⟨k, w⟩ := e
    by_cases h : k = key <;> simp [mapSet, h]

/-- A file either leaves the index as it is or adds one entry to both `tile_map`
and `tile_tree`. -/
theorem GdemPool.initFile_cases (pool p : GdemPool) (f : SourceFile)
    (h : GdemPool.initFile pool f = some p) :
    p = pool ∨ ∃ key bmin bmax,
      p.tile_map = mapSet pool.tile_map key f.path ∧
      p.tile_tree = pool.tile_tree ++ [{ bmin := bmin, bmax := bmax, key := key }] := by
  unfold GdemPool.initFile at h
  split at h
  · left
    exact (Option.some.inj h).symm
  · split at h
    · dsimp only at h
      rw [if_neg (Nat.not_lt_zero _)] at h
      simp only [Option.bind_eq_bind, Option.bind_eq_some] at h
      obtain ⟨_, _, _, _, _, _, _, _, h⟩ := h
      right
      cases h
      exact ⟨_, _, _, rfl, rfl⟩
    · left
      exact (Option.some.inj h).symm

theorem GdemPool.initFiles_sync (files : List SourceFile) :
    ∀ pool p : GdemPool, (pool.tile_map = [] ↔ pool.tile_tree = []) →
      GdemPool.initFiles pool files = some p → (p.tile_map = [] ↔ p.tile_tree = []) := by
  induction files with
  | nil =>
    intro pool p hs h
    cases h
    exact hs
  | cons f rest ih =>
    intro pool p hs h
    unfold GdemPool.initFiles at h
    rw [List.foldlM_cons] at h
    simp only [Option.bind_eq_bind, Option.bind_eq_some] at h
    obtain ⟨q, hq, hrest⟩ := h
    refine ih q p ?_ hrest
    rcases GdemPool.initFile_cases pool q f hq with rfl | ⟨key, bmin, bmax, hm, ht⟩
    · exact hs
    · rw [hm, ht]
      constructor
      · intro h0
        exact absurd h0 (mapSet_ne_nil _ _ _)
      · intro h0
        simp at h0

/-- C15 (as the code computes it): for an index built by `init` in which every
cell has `ilat` in `[-90, 89]` and `ilon` in `[-180, 179]`,
`contains(-180, -90, 180, 90)` is true iff `tile_map` is non-empty; and
`contains` is true iff some inserted box intersects the query box. -/
theorem GdemPool.contains_world_iff_indexed (files : List SourceFile) (pool : GdemPool)
    (hinit : GdemPool.initFiles GdemPool.new files = some pool)
    (hcells : ∀ t ∈ pool.tile_tree, ∃ ilat ilon : Int, -90 ≤ ilat ∧ ilat ≤ 89 ∧
      -180 ≤ ilon ∧ ilon ≤ 179 ∧ t.bmin = ((ilon : ℚ), (ilat : ℚ)) ∧
      t.bmax = ((ilon : ℚ) + 1, (ilat : ℚ) + 1)) :
    (pool.contains (-180) (-90) 180 90 = true ↔ pool.tile_map ≠ []) ∧
      ∀ west south east north : ℚ, pool.contains west south east north = true ↔
        ∃ t ∈ pool.tile_tree, t.bmin.1 ≤ east ∧ west ≤ t.bmax.1 ∧ t.bmin.2 ≤ north ∧
          south ≤ t.bmax.2 := by
  refine ⟨?_, GdemPool.contains_iff pool⟩
  have hsync := GdemPool.initFiles_sync files GdemPool.new pool (by simp [GdemPool.new]) hinit
  rw [GdemPool.contains_iff, ne_eq, hsync]
  constructor
  · rintro ⟨t, ht, -⟩
    exact List.ne_nil_of_mem ht
  · intro hne
    obtain ⟨t, ht⟩ := List.exists_mem_of_ne_nil _ hne
    obtain ⟨ilat, ilon, h1, h2, h3, h4, hmin, hmax⟩ := hcells t ht
    refine ⟨t, ht, ?_⟩
    rw [hmin, hmax]
    have q1 : (-90 : ℚ) ≤ (ilat : ℚ) := by exact_mod_cast h1
    have q2 : (ilat : ℚ) ≤ 89 := by exact_mod_cast h2
    have q3 : (-180 : ℚ) ≤ (ilon : ℚ) := by exact_mod_cast h3
    have q4 : (ilon : ℚ) ≤ 179 := by exact_mod_cast h4
    dsimp only
    refine ⟨by linarith, by linarith, by linarith, by linarith⟩

theorem GdemPool.contains_world_iff_indexed_witness :
    ((({ tile_map := [(40980, "ASTGTM2_N23E120_dem.tif")], tile_cache := TileCache.empty 20480,
         tile_tree := [{ bmin := (((120 : Int) : ℚ), ((23 : Int) : ℚ)),
                         bmax := (((120 : Int) : ℚ) + 1, ((23 : Int) : ℚ) + 1),
                         key := 40980 }] } : GdemPool).contains (-180) (-90) 180 90 = true ↔
        [((40980 : Int), "ASTGTM2_N23E120_dem.tif")] ≠ [])) :=
  (GdemPool.contains_world_iff_indexed
    [{ path := "ASTGTM2_N23E120_dem.tif", stem := "ASTGTM2_N23E120_dem".toList
       opens := true, w := 3601, h := 3601 }]
    { tile_map := [(40980, "ASTGTM2_N23E120_dem.tif")], tile_cache := TileCache.empty 20480,
      tile_tree := [{ bmin := (((120 : Int) : ℚ), ((23 : Int) : ℚ)),
                      bmax := (((120 : Int) : ℚ) + 1, ((23 : Int) : ℚ) + 1),
                      key := 40980 }] }
    (by rfl)
    (by
      intro t ht
      rw [List.mem_singleton] at ht
      subst ht
      exact ⟨23, 120, by decide, by decide, by decide, by decide, rfl, rfl⟩)).1

/-- C15 fails as stated: the 3601x3601 file `ASTGTM2_N95E500_dem.tif` is indexed
(cell `ilat = 95`, `ilon = 500`, box `[500, 95, 501, 96]`), so `tile_map` is
non-empty, and `contains(-180, -90, 180, 90)` is false. -/
theorem GdemPool.contains_world_false_indexed :
    ∃ pool : GdemPool,
      GdemPool.initFiles GdemPool.new
          [{ path := "ASTGTM2_N95E500_dem.tif", stem := "ASTGTM2_N95E500_dem".toList
             opens := true, w := 3601, h := 3601 }] = some pool ∧
      pool.tile_map ≠ [] ∧ pool.contains (-180) (-90) 180 90 = false := by
  have h : GdemPool.initFiles GdemPool.new
      [{ path := "ASTGTM2_N95E500_dem.tif", stem := "ASTGTM2_N95E500_dem".toList
         opens := true, w := 3601, h := 3601 }] =
      some { tile_map := [(67280, "ASTGTM2_N95E500_dem.tif")],
             tile_cache := TileCache.empty 20480,
             tile_tree := [{ bmin := (((500 : Int) : ℚ), ((95 : Int) : ℚ)),
                             bmax := (((500 : Int) : ℚ) + 1, ((95 : Int) : ℚ) + 1),
                             key := 67280 }] } := by
    rfl
  refine ⟨_, h, by simp, ?_⟩
  norm_num [GdemPool.contains, treeSearch]

/-! ## Theorems: repeated `getElevation` -/

theorem mapFind_mapErase {β : Type} (m : List (Int × β)) (k0 k : Int) (b : β)
    (h : mapFind (mapErase m k0) k = some b) : mapFind m k = some b := by
  induction m with
  | nil => simpa [mapErase] using h
  | cons e rest ih =>
    obtain ⟨k1, w⟩ := e
    by_cases h1 : k1 = k0
    · simp only [mapErase, h1, if_true] at h
      have h2 := ih h
      by_cases h3 : k0 = k
      · subst h3
        have : mapFind (mapErase rest k0) k0 = none := by
          clear ih h h2
          induction rest with
          | nil => rfl
          | cons e2 r2 ih2 =>
            obtain ⟨k2, w2⟩ := e2
            by_cases h4 : k2 = k0
            · simp [mapErase, h4, ih2]
            · simp [mapErase, mapFind, h4, ih2]
        rw [this] at h
        cases h
      · simp [mapFind, h1, h3, h2]
    · simp only [mapErase, h1, if_false, mapFind] at h ⊢
      by_cases h3 : k1 = k
      · simpa [h3] using h
      · simp only [h3, if_false] at h ⊢
        exact ih h

/-- After `insert` of an absent key, a lookup of that key finds the inserted
block or (when it was evicted at once) nothing. -/
theorem TileCache.tryGet_insert_absent {β : Type} (c : TileCache β) (key : Int) (b b1 : β)
    (habs : c.tryGet key = none) (h : (c.insert key b).tryGet key = some b1) : b1 = b := by
  unfold TileCache.tryGet at habs h
  unfold TileCache.insert at h
  rw [habs] at h
  dsimp only at h
  have hset := mapFind_mapSet_self c._map key b
  split at h
  · split at h
    · dsimp only at h
      rw [hset] at h
      exact (Option.some.inj h).symm
    · dsimp only at h
      have := mapFind_mapErase _ _ _ _ h
      rw [hset] at this
      exact (Option.some.inj this).symm
  · dsimp only at h
    rw [hset] at h
    exact (Option.some.inj h).symm

/-- Whenever `getElevation(lon, lat)` returns a value, the next call with the
same point returns the same value, whether it finds the block in the cache
or reads the file again (`files` is fixed: the raster is a function of the
path and the window). -/
theorem GdemPool.getElevation_repeat (files : String → Option Dataset) (pool pool1 : GdemPool)
    (lon lat : ℚ) (e1 : Int)
    (h : GdemPool.getElevation files pool lon lat = .ok (e1, pool1)) :
    ∃ pool2, GdemPool.getElevation files pool1 lon lat = .ok (e1, pool2) := by
  unfold GdemPool.getElevation at h ⊢
  dsimp only at h ⊢
  cases hk : mapFind pool.tile_map (toInt (lat + 90) * 360 + toInt (lon + 180)) with
  | none =>
    rw [hk] at h
    cases h
    exact ⟨pool, by rw [hk]⟩
  | some path =>
    rw [hk] at h
    try dsimp only at h
    cases ht : pool.tile_cache.tryGet
        (toInt (lat * 16 + 90 * 16) * 360 * 16 + toInt (lon * 16 + 180 * 16)) with
    | some b =>
      rw [ht] at h
      try dsimp only at h
      split at h
      · cases h
        refine ⟨pool, ?_⟩
        rw [hk]
        dsimp only
        rw [ht]
        dsimp only
        rw [if_pos (by assumption)]
      · cases h
    | none =>
      rw [ht] at h
      try dsimp only at h
      cases hf : files path with
      | none =>
        rw [hf] at h
        cases h
      | some ds =>
        rw [hf] at h
        try dsimp only at h
        by_cases hbs : ds.nXBlockSize < 226 ∨ ds.nYBlockSize < 226
        · rw [if_pos hbs] at h
          cases h
        · rw [if_neg hbs] at h
          try dsimp only at h
          cases hio : ds.RasterIO (Int.tmod (toInt (lon * 16 + 180 * 16)) 16 * 225)
              ((15 - Int.tmod (toInt (lat * 16 + 90 * 16)) 16) * 225) with
          | none =>
            rw [hio] at h
            cases h
          | some data =>
            rw [hio] at h
            try dsimp only at h
            split at h
            · rename_i hin
              cases h
              try dsimp only
              rw [hk]
              try dsimp only
              cases ht2 : (pool.tile_cache.insert
                  (toInt (lat * 16 + 90 * 16) * 360 * 16 + toInt (lon * 16 + 180 * 16))
                  { west := ↑(toInt (lon * 16 + 180 * 16)) * 0.0625 - 180,
                    south := ↑(toInt (lat * 16 + 90 * 16)) * 0.0625 - 90,
                    data := data }).tryGet
                  (toInt (lat * 16 + 90 * 16) * 360 * 16 + toInt (lon * 16 + 180 * 16)) with
              | some b1 =>
                have hb := TileCache.tryGet_insert_absent _ _ _ _ ht ht2
                subst hb
                try dsimp only
                rw [if_pos hin]
                exact ⟨_, rfl⟩
              | none =>
                try dsimp only
                rw [hf]
                try dsimp only
                rw [if_neg hbs]
                try dsimp only
                rw [hio]
                try dsimp only
                rw [if_pos hin]
                exact ⟨_, rfl⟩
            · cases h

theorem GdemPool.getElevation_repeat_witness :
    ∃ pool2, GdemPool.getElevation (fun _ => some (constDataset 100))
        { tile_map := [(32580, "ASTGTM2_N00E000_dem.tif")],
          tile_cache := { _size := 20480,
                          _map := [(8297280, { west := 0, south := 0, data := fun _ => 100 })],
                          _queue := [8297280] },
          tile_tree := [] } (1 / 64) (1 / 32) = .ok (100, pool2) :=
  GdemPool.getElevation_repeat (fun _ => some (constDataset 100))
    { tile_map := [(32580, "ASTGTM2_N00E000_dem.tif")], tile_cache := TileCache.empty 20480,
      tile_tree := [] }
    { tile_map := [(32580, "ASTGTM2_N00E000_dem.tif")],
      tile_cache := { _size := 20480,
                      _map := [(8297280, { west := 0, south := 0, data := fun _ => 100 })],
                      _queue := [8297280] },
      tile_tree := [] }
    (1 / 64) (1 / 32) 100
    (by
      norm_num [GdemPool.getElevation, toInt, mapFind, TileCache.tryGet, TileCache.empty,
        constDataset, TileCache.insert, mapSet])

/-- C16 fails on the code at the east edge: with only cell N01W180 indexed,
an earlier call `getElevation(180, 31/32)` is served through the aliased cell
key `90*360 + 360 = 91*360` and caches a block with west `180` under the
block key `1455*5760 + 5760`.  The point `(-180, 1)` lies in the indexed cell
and its block key `1456*5760` is the same, so the first of two successive
calls `getElevation(-180, 1)` uses that block: `col = -1295999`, `row = 0`,
and the read index `-1295999` is outside the `226*226` buffer; no value is
returned that a second call could repeat. -/
theorem GdemPool.getElevation_repeat_reads_outside_block :
    ∃ pool : GdemPool,
      GdemPool.initFile GdemPool.new
          { path := "ASTGTM2_N01W180_dem.tif", stem := "ASTGTM2_N01W180_dem".toList
            opens := true, w := 3601, h := 3601 } = some pool ∧
      (∃ t ∈ pool.tile_tree, t.containsPoint (-180) 1) ∧
      mapFind pool.tile_map (toInt ((1 : ℚ) + 90) * 360 + toInt ((-180 : ℚ) + 180)) =
        some "ASTGTM2_N01W180_dem.tif" ∧
      (match GdemPool.getElevation (fun _ => some (constDataset 100)) pool 180 (31 / 32) with
        | .ok (e, pool1) =>
            e = 100 ∧ pool1.tile_cache._queue = [1455 * 5760 + 5760] ∧
            GdemPool.getElevation (fun _ => some (constDataset 100)) pool1 (-180) 1 =
              .error (Fault.outOfBounds (-1295999))
        | .error _ => False) ∧
      ¬ ((0 : Int) ≤ -1295999) := by
  have h : GdemPool.initFile GdemPool.new
      { path := "ASTGTM2_N01W180_dem.tif", stem := "ASTGTM2_N01W180_dem".toList
        opens := true, w := 3601, h := 3601 } =
      some { tile_map := [(32760, "ASTGTM2_N01W180_dem.tif")],
             tile_cache := TileCache.empty 20480,
             tile_tree := [{ bmin := (((-180 : Int) : ℚ), ((1 : Int) : ℚ)),
                             bmax := (((-180 : Int) : ℚ) + 1, ((1 : Int) : ℚ) + 1),
                             key := 32760 }] } := by
    rfl
  refine ⟨_, h, ?_, ?_, ?_, by decide⟩
  · refine ⟨_, List.mem_cons_self _ _, ?_⟩
    norm_num [TreeEntry.containsPoint]
  · norm_num [toInt, mapFind]
  · norm_num [GdemPool.getElevation, toInt, mapFind, TileCache.tryGet, TileCache.empty,
      constDataset, TileCache.insert, mapSet]

/-! ## Theorems: Mercator round trip -/

theorem M_PI_bounds : (3 : ℝ) < M_PI ℝ ∧ M_PI ℝ < 315 / 100 := by
  unfold M_PI
  constructor <;> norm_num

/-- C17: over the reals, for `lon` in `[-180, 180]` and `|lat| ≤ 85`,
`mercatorToLonlat` after `lonlatToMercator` returns `(lon, lat)` itself, so both
differences are within `1e-9` degrees; the Mercator `x` in between lies within
`EARTH_LENGTH` of zero. -/
theorem mercator_roundtrip (lon lat : ℝ) (hlon0 : -180 ≤ lon) (hlon1 : lon ≤ 180)
    (hlat : |lat| ≤ 85) :
    mercatorToLonlat Real.exp Real.arctan
        (lonlatToMercator Real.log Real.tan lon lat).1
        (lonlatToMercator Real.log Real.tan lon lat).2 = (lon, lat) ∧
      |(mercatorToLonlat Real.exp Real.arctan
        (lonlatToMercator Real.log Real.tan lon lat).1
        (lonlatToMercator Real.log Real.tan lon lat).2).1 - lon| ≤ 1e-9 ∧
      |(mercatorToLonlat Real.exp Real.arctan
        (lonlatToMercator Real.log Real.tan lon lat).1
        (lonlatToMercator Real.log Real.tan lon lat).2).2 - lat| ≤ 1e-9 ∧
      |(lonlatToMercator Real.log Real.tan lon lat).1| ≤ EARTH_LENGTH ℝ := by
  obtain ⟨hp0, hp1⟩ := M_PI_bounds
  have hE : EARTH_LENGTH ℝ ≠ 0 := by
    unfold EARTH_LENGTH
    norm_num
  have hpne : M_PI ℝ ≠ 0 := by linarith
  obtain ⟨hl0, hl1⟩ := abs_le.1 hlat
  have hpi : (3.14 : ℝ) < Real.pi := Real.pi_gt_d2
  have hθ0 : 0 < (90 + lat) * M_PI ℝ / 360 := by
    have : 0 < (90 + lat) := by linarith
    positivity
  have hθ1 : (90 + lat) * M_PI ℝ / 360 < Real.pi / 2 := by
    have h1 : (90 + lat) * M_PI ℝ ≤ 175 * M_PI ℝ :=
      mul_le_mul_of_nonneg_right (by linarith) (by linarith)
    norm_num at hpi
    linarith
  have htan : 0 < Real.tan ((90 + lat) * M_PI ℝ / 360) :=
    Real.tan_pos_of_pos_of_lt_pi_div_two hθ0 hθ1
  have hmain : mercatorToLonlat Real.exp Real.arctan
      (lonlatToMercator Real.log Real.tan lon lat).1
      (lonlatToMercator Real.log Real.tan lon lat).2 = (lon, lat) := by
    unfold mercatorToLonlat lonlatToMercator
    dsimp only
    have e1 : lon / 180 * EARTH_LENGTH ℝ / EARTH_LENGTH ℝ * 180 = lon := by
      field_simp
      ring
    have e2 : Real.log (Real.tan ((90 + lat) * M_PI ℝ / 360)) / (M_PI ℝ / 180) *
        EARTH_LENGTH ℝ / 180 / EARTH_LENGTH ℝ * 180 * M_PI ℝ / 180 =
        Real.log (Real.tan ((90 + lat) * M_PI ℝ / 360)) := by
      field_simp
      ring
    rw [e1, e2, Real.exp_log htan, Real.arctan_tan (by linarith) hθ1]
    congr 1
    field_simp
    ring
  refine ⟨hmain, ?_, ?_, ?_⟩
  · rw [hmain]
    norm_num
  · rw [hmain]
    norm_num
  · have hEpos : (0 : ℝ) < EARTH_LENGTH ℝ := by
      unfold EARTH_LENGTH
      norm_num
    unfold lonlatToMercator
    dsimp only
    rw [abs_le]
    constructor <;> nlinarith

theorem mercator_roundtrip_witness :
    mercatorToLonlat Real.exp Real.arctan
        (lonlatToMercator Real.log Real.tan 120 23).1
        (lonlatToMercator Real.log Real.tan 120 23).2 = (120, 23) :=
  (mercator_roundtrip 120 23 (by norm_num) (by norm_num) (by norm_num [abs_le])).1

/-! ## Theorems: block indexing -/

theorem toInt_of_nonneg (d : ℚ) (h : 0 ≤ d) : toInt d = ⌊d⌋ := by
  unfold toInt
  rw [if_pos h]

/-- Sixteenths of a degree: the block index `⌊16 L⌋` of a shifted coordinate
`L ≥ 0` lies in the cell `⌊L⌋`, at position `⌊16 L⌋ - 16 ⌊L⌋` in `0 .. 15`. -/
theorem block_in_cell (L : ℚ) (hL : 0 ≤ L) :
    0 ≤ ⌊16 * L⌋ ∧ ⌊16 * L⌋ / 16 = ⌊L⌋ ∧ Int.tmod ⌊16 * L⌋ 16 = ⌊16 * L⌋ - 16 * ⌊L⌋ ∧
      0 ≤ ⌊16 * L⌋ - 16 * ⌊L⌋ ∧ ⌊16 * L⌋ - 16 * ⌊L⌋ ≤ 15 := by
  have hB0 : 0 ≤ ⌊16 * L⌋ := Int.floor_nonneg.2 (by linarith)
  have h1 : 16 * ⌊L⌋ ≤ ⌊16 * L⌋ := by
    rw [Int.le_floor]
    push_cast
    have := Int.floor_le L
    linarith
  have h2 : ⌊16 * L⌋ < 16 * ⌊L⌋ + 16 := by
    rw [Int.floor_lt]
    push_cast
    have := Int.lt_floor_add_one L
    linarith
  refine ⟨hB0, by omega, ?_, by omega, by omega⟩
  rw [Int.tmod_eq_emod hB0 (by decide)]
  omega

/-- The column arithmetic: with `B = ⌊16 L⌋` and `C = ⌊L⌋`, the column
`⌊225 (16 L - B) + 1/2⌋` lies in `0 .. 225` and, added to the window offset
`225 (B - 16 C)`, is the nearest sample `⌊3600 (L - C) + 1/2⌋` of the cell. -/
theorem col_nearest (L : ℚ) :
    0 ≤ ⌊225 * (16 * L - (⌊16 * L⌋ : ℚ)) + 1 / 2⌋ ∧
      ⌊225 * (16 * L - (⌊16 * L⌋ : ℚ)) + 1 / 2⌋ ≤ 225 ∧
      225 * (⌊16 * L⌋ - 16 * ⌊L⌋) + ⌊225 * (16 * L - (⌊16 * L⌋ : ℚ)) + 1 / 2⌋ =
        ⌊3600 * (L - (⌊L⌋ : ℚ)) + 1 / 2⌋ ∧
      0 ≤ ⌊3600 * (L - (⌊L⌋ : ℚ)) + 1 / 2⌋ ∧ ⌊3600 * (L - (⌊L⌋ : ℚ)) + 1 / 2⌋ ≤ 3600 := by
  have b1 := Int.floor_le (16 * L)
  have b2 := Int.lt_floor_add_one (16 * L)
  have c1 := Int.floor_le L
  have c2 := Int.lt_floor_add_one L
  have k1 := Int.floor_le (225 * (16 * L - (⌊16 * L⌋ : ℚ)) + 1 / 2)
  have k2 := Int.lt_floor_add_one (225 * (16 * L - (⌊16 * L⌋ : ℚ)) + 1 / 2)
  refine ⟨?_, ?_, ?_, ?_, ?_⟩
  · rw [Int.floor_nonneg]
    linarith
  · have : ⌊225 * (16 * L - (⌊16 * L⌋ : ℚ)) + 1 / 2⌋ < 226 := by
      rw [Int.floor_lt]
      push_cast
      linarith
    omega
  · symm
    rw [Int.floor_eq_iff]
    push_cast
    constructor <;> linarith
  · rw [Int.floor_nonneg]
    linarith
  · have : ⌊3600 * (L - (⌊L⌋ : ℚ)) + 1 / 2⌋ < 3601 := by
      rw [Int.floor_lt]
      push_cast
      linarith
    omega

/-- The row arithmetic: rows grow southward, so with `B = ⌊16 M⌋` and `C = ⌊M⌋`
the row `⌊225 (B + 1 - 16 M) + 1/2⌋` lies in `0 .. 225` and, added to the
window offset `225 (15 - (B - 16 C))`, is `⌊3600 (C + 1 - M) + 1/2⌋`. -/
theorem row_nearest (M : ℚ) :
    0 ≤ ⌊225 * ((⌊16 * M⌋ : ℚ) + 1 - 16 * M) + 1 / 2⌋ ∧
      ⌊225 * ((⌊16 * M⌋ : ℚ) + 1 - 16 * M) + 1 / 2⌋ ≤ 225 ∧
      (15 - (⌊16 * M⌋ - 16 * ⌊M⌋)) * 225 + ⌊225 * ((⌊16 * M⌋ : ℚ) + 1 - 16 * M) + 1 / 2⌋ =
        ⌊3600 * ((⌊M⌋ : ℚ) + 1 - M) + 1 / 2⌋ ∧
      0 ≤ ⌊3600 * ((⌊M⌋ : ℚ) + 1 - M) + 1 / 2⌋ ∧
      ⌊3600 * ((⌊M⌋ : ℚ) + 1 - M) + 1 / 2⌋ ≤ 3600 := by
  have b1 := Int.floor_le (16 * M)
  have b2 := Int.lt_floor_add_one (16 * M)
  have c1 := Int.floor_le M
  have c2 := Int.lt_floor_add_one M
  have k1 := Int.floor_le (225 * ((⌊16 * M⌋ : ℚ) + 1 - 16 * M) + 1 / 2)
  have k2 := Int.lt_floor_add_one (225 * ((⌊16 * M⌋ : ℚ) + 1 - 16 * M) + 1 / 2)
  refine ⟨?_, ?_, ?_, ?_, ?_⟩
  · rw [Int.floor_nonneg]
    linarith
  · have : ⌊225 * ((⌊16 * M⌋ : ℚ) + 1 - 16 * M) + 1 / 2⌋ < 226 := by
      rw [Int.floor_lt]
      push_cast
      linarith
    omega
  · symm
    rw [Int.floor_eq_iff]
    push_cast
    constructor <;> linarith
  · rw [Int.floor_nonneg]
    linarith
  · have : ⌊3600 * ((⌊M⌋ : ℚ) + 1 - M) + 1 / 2⌋ < 3601 := by
      rw [Int.floor_lt]
      push_cast
      linarith
    omega

theorem lon_axis (lon : ℚ) (h0 : -180 ≤ lon) :
    GdemPool.ilon_block lon = ⌊16 * (lon + 180)⌋ ∧ toInt (lon + 180) = ⌊lon⌋ + 180 ∧
      GdemPool.blockCol ((GdemPool.ilon_block lon : ℚ) * 0.0625 - 180) lon =
        ⌊225 * (16 * (lon + 180) - (⌊16 * (lon + 180)⌋ : ℚ)) + 1 / 2⌋ := by
  have hB : GdemPool.ilon_block lon = ⌊16 * (lon + 180)⌋ := by
    unfold GdemPool.ilon_block
    rw [toInt_of_nonneg _ (by linarith)]
    congr 1
    ring
  have b1 := Int.floor_le (16 * (lon + 180))
  refine ⟨hB, ?_, ?_⟩
  · rw [toInt_of_nonneg _ (by linarith)]
    have := Int.floor_add_int lon 180
    push_cast at this
    exact this
  · rw [hB]
    unfold GdemPool.blockCol
    have e : 225 * ((lon - ((⌊16 * (lon + 180)⌋ : ℚ) * 0.0625 - 180)) * 16) + 0.5 =
        225 * (16 * (lon + 180) - (⌊16 * (lon + 180)⌋ : ℚ)) + 1 / 2 := by
      rw [show (0.0625 : ℚ) = 1 / 16 by norm_num, show (0.5 : ℚ) = 1 / 2 by norm_num]
      ring
    rw [e, toInt_of_nonneg _ (by linarith)]

theorem lat_axis (lat : ℚ) (h0 : -90 ≤ lat) :
    GdemPool.ilat_block lat = ⌊16 * (lat + 90)⌋ ∧ toInt (lat + 90) = ⌊lat⌋ + 90 ∧
      GdemPool.blockRow ((GdemPool.ilat_block lat : ℚ) * 0.0625 - 90) lat =
        ⌊225 * ((⌊16 * (lat + 90)⌋ : ℚ) + 1 - 16 * (lat + 90)) + 1 / 2⌋ := by
  have hB : GdemPool.ilat_block lat = ⌊16 * (lat + 90)⌋ := by
    unfold GdemPool.ilat_block
    rw [toInt_of_nonneg _ (by linarith)]
    congr 1
    ring
  have b2 := Int.lt_floor_add_one (16 * (lat + 90))
  refine ⟨hB, ?_, ?_⟩
  · rw [toInt_of_nonneg _ (by linarith)]
    have := Int.floor_add_int lat 90
    push_cast at this
    exact this
  · rw [hB]
    unfold GdemPool.blockRow
    have e : 225 * (((⌊16 * (lat + 90)⌋ : ℚ) * 0.0625 - 90 + 0.0625 - lat) * 16) + 0.5 =
        225 * ((⌊16 * (lat + 90)⌋ : ℚ) + 1 - 16 * (lat + 90)) + 1 / 2 := by
      rw [show (0.0625 : ℚ) = 1 / 16 by norm_num, show (0.5 : ℚ) = 1 / 2 by norm_num]
      ring
    rw [e, toInt_of_nonneg _ (by linarith)]

/-- C19: for `lon` in `[-180, 180)` and `lat` in `[-90, 90)`, on a cache miss
`getElevation` returns the sample `data[row*226 + col]` of the window read at
`(xOffset, yOffset)`, with `col, row` in `0 .. 225` and
`xOffset + col = floor(3600 (lon - floor lon) + 1/2)`,
`yOffset + row = floor(3600 (floor lat + 1 - lat) + 1/2)`, both in `0 .. 3600`;
the cell `(floor lon, floor lat)` is a valid cell, it is the one whose key is
looked up, and it owns the block: `ilon_block / 16` and `ilat_block / 16` are
its shifted indices. -/
theorem GdemPool.getElevation_miss_nearest (files : String → Option Dataset) (pool : GdemPool)
    (lon lat : ℚ) (path : String) (ds : Dataset) (data : Nat → Int)
    (hlon0 : -180 ≤ lon) (hlon1 : lon < 180) (hlat0 : -90 ≤ lat) (hlat1 : lat < 90)
    (hk : mapFind pool.tile_map (toInt (lat + 90) * 360 + toInt (lon + 180)) = some path)
    (hmiss : pool.tile_cache.tryGet (GdemPool.key_block lon lat) = none)
    (hf : files path = some ds) (hbx : 226 ≤ ds.nXBlockSize) (hby : 226 ≤ ds.nYBlockSize)
    (hio : ds.RasterIO (GdemPool.xOffset (GdemPool.ilon_block lon))
      (GdemPool.yOffset (GdemPool.ilat_block lat)) = some data) :
    ∃ (col row : Int) (pool1 : GdemPool),
      col = GdemPool.blockCol ((GdemPool.ilon_block lon : ℚ) * 0.0625 - 180) lon ∧
      row = GdemPool.blockRow ((GdemPool.ilat_block lat : ℚ) * 0.0625 - 90) lat ∧
      0 ≤ col ∧ col ≤ 225 ∧ 0 ≤ row ∧ row ≤ 225 ∧
      GdemPool.getElevation files pool lon lat = .ok (data (row * 226 + col).toNat, pool1) ∧
      GdemPool.xOffset (GdemPool.ilon_block lon) + col = ⌊3600 * (lon - (⌊lon⌋ : ℚ)) + 1 / 2⌋ ∧
      GdemPool.yOffset (GdemPool.ilat_block lat) + row =
        ⌊3600 * ((⌊lat⌋ : ℚ) + 1 - lat) + 1 / 2⌋ ∧
      0 ≤ GdemPool.xOffset (GdemPool.ilon_block lon) + col ∧
      GdemPool.xOffset (GdemPool.ilon_block lon) + col ≤ 3600 ∧
      0 ≤ GdemPool.yOffset (GdemPool.ilat_block lat) + row ∧
      GdemPool.yOffset (GdemPool.ilat_block lat) + row ≤ 3600 ∧
      -180 ≤ ⌊lon⌋ ∧ ⌊lon⌋ ≤ 179 ∧ -90 ≤ ⌊lat⌋ ∧ ⌊lat⌋ ≤ 89 ∧
      toInt (lon + 180) = ⌊lon⌋ + 180 ∧ toInt (lat + 90) = ⌊lat⌋ + 90 ∧
      GdemPool.ilon_block lon / 16 = ⌊lon⌋ + 180 ∧
      GdemPool.ilat_block lat / 16 = ⌊lat⌋ + 90 := by
  obtain ⟨hBx, hCx, hcol⟩ := lon_axis lon hlon0
  obtain ⟨hBy, hCy, hrow⟩ := lat_axis lat hlat0
  obtain ⟨x1, x2, x3, x4, x5⟩ := block_in_cell (lon + 180) (by linarith)
  obtain ⟨y1, y2, y3, y4, y5⟩ := block_in_cell (lat + 90) (by linarith)
  obtain ⟨c1, c2, c3, c4, c5⟩ := col_nearest (lon + 180)
  obtain ⟨r1, r2, r3, r4, r5⟩ := row_nearest (lat + 90)
  have fx : ⌊lon + 180⌋ = ⌊lon⌋ + 180 := by
    have := Int.floor_add_int lon 180
    push_cast at this
    exact this
  have fy : ⌊lat + 90⌋ = ⌊lat⌋ + 90 := by
    have := Int.floor_add_int lat 90
    push_cast at this
    exact this
  have ex : (lon + 180 - ((⌊lon + 180⌋ : Int) : ℚ)) = lon - (⌊lon⌋ : ℚ) := by
    rw [fx]
    push_cast
    ring
  have ey : (((⌊lat + 90⌋ : Int) : ℚ) + 1 - (lat + 90)) = (⌊lat⌋ : ℚ) + 1 - lat := by
    rw [fy]
    push_cast
    ring
  rw [ex] at c3 c4 c5
  rw [ey] at r3 r4 r5
  have hxo : GdemPool.xOffset (GdemPool.ilon_block lon) =
      225 * (⌊16 * (lon + 180)⌋ - 16 * ⌊lon + 180⌋) := by
    unfold GdemPool.xOffset
    rw [hBx, x3]
    ring
  have hyo : GdemPool.yOffset (GdemPool.ilat_block lat) =
      (15 - (⌊16 * (lat + 90)⌋ - 16 * ⌊lat + 90⌋)) * 225 := by
    unfold GdemPool.yOffset
    rw [hBy, y3]
  have hlo1 : -180 ≤ ⌊lon⌋ := by
    rw [Int.le_floor]
    push_cast
    exact hlon0
  have hlo2 : ⌊lon⌋ ≤ 179 := by
    have : ⌊lon⌋ < 180 := by
      rw [Int.floor_lt]
      push_cast
      exact hlon1
    omega
  have hla1 : -90 ≤ ⌊lat⌋ := by
    rw [Int.le_floor]
    push_cast
    exact hlat0
  have hla2 : ⌊lat⌋ ≤ 89 := by
    have : ⌊lat⌋ < 90 := by
      rw [Int.floor_lt]
      push_cast
      exact hlat1
    omega
  refine ⟨_, _,
    { pool with
      tile_cache := pool.tile_cache.insert (GdemPool.key_block lon lat)
        { west := (GdemPool.ilon_block lon : ℚ) * 0.0625 - 180,
          south := (GdemPool.ilat_block lat : ℚ) * 0.0625 - 90, data := data } },
    rfl, rfl, ?_, ?_, ?_, ?_, ?_, ?_, ?_, ?_, ?_, ?_, ?_, hlo1, hlo2, hla1, hla2,
    hCx, hCy, ?_, ?_⟩
  · rw [hcol]; exact c1
  · rw [hcol]; exact c2
  · rw [hrow]; exact r1
  · rw [hrow]; exact r2
  · have hidx : 0 ≤ GdemPool.blockRow ((GdemPool.ilat_block lat : ℚ) * 0.0625 - 90) lat * 226 +
          GdemPool.blockCol ((GdemPool.ilon_block lon : ℚ) * 0.0625 - 180) lon ∧
        GdemPool.blockRow ((GdemPool.ilat_block lat : ℚ) * 0.0625 - 90) lat * 226 +
          GdemPool.blockCol ((GdemPool.ilon_block lon : ℚ) * 0.0625 - 180) lon < 226 * 226 := by
      rw [hcol, hrow]
      constructor <;> omega
    have hbs : ¬ (ds.nXBlockSize < 226 ∨ ds.nYBlockSize < 226) := by omega
    unfold GdemPool.key_block GdemPool.ilon_block GdemPool.ilat_block at hmiss
    unfold GdemPool.xOffset GdemPool.yOffset GdemPool.ilon_block GdemPool.ilat_block at hio
    unfold GdemPool.blockRow GdemPool.blockCol GdemPool.ilon_block GdemPool.ilat_block at hidx
    unfold GdemPool.blockRow GdemPool.blockCol GdemPool.key_block GdemPool.ilon_block
      GdemPool.ilat_block
    unfold GdemPool.getElevation
    simp only [hk, hmiss, hf, hio, if_neg hbs, if_pos hidx]
  · rw [hxo, hcol]; exact c3
  · rw [hyo, hrow]; exact r3
  · rw [hxo, hcol, c3]; exact c4
  · rw [hxo, hcol, c3]; exact c5
  · rw [hyo, hrow, r3]; exact r4
  · rw [hyo, hrow, r3]; exact r5
  · rw [hBx, x2, fx]
  · rw [hBy, y2, fy]

theorem GdemPool.getElevation_miss_nearest_witness :
    ∃ (col row : Int) (pool1 : GdemPool),
      0 ≤ col ∧ col ≤ 225 ∧ 0 ≤ row ∧ row ≤ 225 ∧
      GdemPool.getElevation (fun _ => some (constDataset 100))
          { tile_map := [(32580, "ASTGTM2_N00E000_dem.tif")],
            tile_cache := TileCache.empty 20480, tile_tree := [] } (1 / 64) (1 / 32) =
        .ok ((fun _ => (100 : Int)) (row * 226 + col).toNat, pool1) ∧
      GdemPool.xOffset (GdemPool.ilon_block (1 / 64)) + col =
        ⌊3600 * ((1 / 64 : ℚ) - (⌊(1 / 64 : ℚ)⌋ : ℚ)) + 1 / 2⌋ ∧
      GdemPool.yOffset (GdemPool.ilat_block (1 / 32)) + row =
        ⌊3600 * ((⌊(1 / 32 : ℚ)⌋ : ℚ) + 1 - 1 / 32) + 1 / 2⌋ := by
  obtain ⟨col, row, pool1, -, -, h1, h2, h3, h4, h5, h6, h7, -⟩ :=
    GdemPool.getElevation_miss_nearest (fun _ => some (constDataset 100))
      { tile_map := [(32580, "ASTGTM2_N00E000_dem.tif")], tile_cache := TileCache.empty 20480,
        tile_tree := [] }
      (1 / 64) (1 / 32) "ASTGTM2_N00E000_dem.tif" (constDataset 100) (fun _ => 100)
      (by norm_num) (by norm_num) (by norm_num) (by norm_num)
      (by norm_num [toInt, mapFind]) rfl rfl (by decide) (by decide) rfl
  exact ⟨col, row, pool1, h1, h2, h3, h4, h5, h6, h7⟩

/-- C18 fails on the code at the edges `lon = 180` and `lat = 90`: the block
indices there are 5760 and 2880, outside `[0, 5760)` and `[0, 2880)`, and the
in-domain points `(180, 31/32)` and `(-180, 1)` have different block indices
`(1455, 5760)` and `(1456, 0)` with the same key. -/
theorem GdemPool.block_key_alias_east_edge :
    GdemPool.ilon_block 180 = 5760 ∧ GdemPool.ilat_block 90 = 2880 ∧
      (GdemPool.ilat_block (31 / 32), GdemPool.ilon_block 180) = (1455, 5760) ∧
      (GdemPool.ilat_block 1, GdemPool.ilon_block (-180)) = (1456, 0) ∧
      GdemPool.key_block 180 (31 / 32) = GdemPool.key_block (-180) 1 := by
  norm_num [GdemPool.ilon_block, GdemPool.ilat_block, GdemPool.key_block, toInt]

/-- Away from the east and north edges the block indices are in range and the
key determines them. -/
theorem GdemPool.block_indices_half_open (lon lat lon2 lat2 : ℚ)
    (h1 : -180 ≤ lon) (h2 : lon < 180) (h3 : -90 ≤ lat) (h4 : lat < 90)
    (k1 : -180 ≤ lon2) (k2 : lon2 < 180) (k3 : -90 ≤ lat2) (k4 : lat2 < 90) :
    0 ≤ GdemPool.ilon_block lon ∧ GdemPool.ilon_block lon < 5760 ∧
      0 ≤ GdemPool.ilat_block lat ∧ GdemPool.ilat_block lat < 2880 ∧
      (GdemPool.key_block lon lat = GdemPool.key_block lon2 lat2 →
        GdemPool.ilon_block lon = GdemPool.ilon_block lon2 ∧
          GdemPool.ilat_block lat = GdemPool.ilat_block lat2) := by
  have hx : ∀ l : ℚ, -180 ≤ l → l < 180 →
      0 ≤ GdemPool.ilon_block l ∧ GdemPool.ilon_block l < 5760 := by
    intro l a b
    rw [(lon_axis l a).1]
    refine ⟨Int.floor_nonneg.2 (by linarith), ?_⟩
    rw [Int.floor_lt]
    push_cast
    linarith
  have hy : ∀ l : ℚ, -90 ≤ l → l < 90 →
      0 ≤ GdemPool.ilat_block l ∧ GdemPool.ilat_block l < 2880 := by
    intro l a b
    rw [(lat_axis l a).1]
    refine ⟨Int.floor_nonneg.2 (by linarith), ?_⟩
    rw [Int.floor_lt]
    push_cast
    linarith
  obtain ⟨a1, a2⟩ := hx lon h1 h2
  obtain ⟨a3, a4⟩ := hy lat h3 h4
  obtain ⟨b1, b2⟩ := hx lon2 k1 k2
  obtain ⟨b3, b4⟩ := hy lat2 k3 k4
  refine ⟨a1, a2, a3, a4, ?_⟩
  intro hkey
  unfold GdemPool.key_block at hkey
  omega

/-! ## Theorems: the placeholder tile -/

/-- C14 fails on the code for `out_type = tif`: the placeholder is written by
the `PNG` driver to `<outdir>/null.png`, not to `<outdir>/null.tif`; for
`out_type = png` the path is `<outdir>/null.png` as claimed. -/
theorem mainMakeNullImage_tif_writes_png :
    mainMakeNullImage 256 "grey" "tif" "out" true true =
        some ("out/null.png", "PNG", 256, 256) ∧
      "out/null.png" ≠ "out" ++ "/null." ++ "tif" ∧
      mainMakeNullImage 256 "grey" "png" "out" true true =
        some ("out" ++ "/null." ++ "png", "PNG", 256, 256) := by
  refine ⟨by decide, by decide, by decide⟩

/-! ## Theorems: quadrant assembly in `makeLodImage` -/

theorem subwidth_bounds (W : Int) (hW : 1 ≤ W) :
    GdemPool.subwidth W = W / 2 + 1 ∧ 1 ≤ GdemPool.subwidth W ∧ GdemPool.subwidth W ≤ W := by
  unfold GdemPool.subwidth
  rw [Int.tdiv_eq_ediv (by omega) (by decide)]
  omega

/-- Inside a `W x H` grid, a row in `0 .. H-1` and a column in `0 .. W-1` give an
index in `0 .. W*H - 1`. -/
theorem grid_index_bounds (W H r c : Int) (hr0 : 0 ≤ r) (hr1 : r < H) (hc0 : 0 ≤ c)
    (hc1 : c < W) : 0 ≤ r * W + c ∧ r * W + c < W * H := by
  constructor
  · have : 0 ≤ r * W := mul_nonneg hr0 (by omega)
    omega
  · nlinarith

/-- Distinct grid positions have distinct indices. -/
theorem grid_index_inj (W r c r2 c2 : Int) (hc0 : 0 ≤ c) (hc1 : c < W) (hd0 : 0 ≤ c2)
    (hd1 : c2 < W) (h : r * W + c = r2 * W + c2) : r = r2 ∧ c = c2 := by
  have hr : r = r2 := by
    by_contra hne
    rcases lt_or_gt_of_ne hne with hlt | hgt
    · have : (r2 - r - 1) * W ≥ 0 := mul_nonneg (by omega) (by omega)
      nlinarith
    · have : (r - r2 - 1) * W ≥ 0 := mul_nonneg (by omega) (by omega)
      nlinarith
  subst hr
  exact ⟨rfl, by omega⟩

/-- The written index is the grid index of the sub-tile pixel moved by the
origin of the quadrant, and that position lies inside the `W x H` grid. -/
theorem lodDestIndex_eq (W H cx cy x y : Int) (hW : 1 ≤ W) (hH : 1 ≤ H)
    (hx0 : 0 ≤ x) (hx1 : x < GdemPool.subwidth W) (hy0 : 0 ≤ y) (hy1 : y < GdemPool.subheight H) :
    GdemPool.lodDestIndex W H cx cy x y =
        ((lodOrigin W H cx cy).2 + y) * W + ((lodOrigin W H cx cy).1 + x) ∧
      0 ≤ (lodOrigin W H cx cy).1 + x ∧ (lodOrigin W H cx cy).1 + x < W ∧
      0 ≤ (lodOrigin W H cx cy).2 + y ∧ (lodOrigin W H cx cy).2 + y < H := by
  obtain ⟨-, w1, w2⟩ := subwidth_bounds W hW
  have hh := subwidth_bounds H hH
  have h1 : 1 ≤ GdemPool.subheight H := hh.2.1
  have h2 : GdemPool.subheight H ≤ H := hh.2.2
  unfold GdemPool.lodDestIndex lodOrigin
  by_cases hcx : cx = 0 <;> by_cases hcy : cy = 0 <;>
    simp only [hcx, hcy, if_true, if_false] <;>
    refine ⟨by ring, by omega, by omega, by omega, by omega⟩

theorem bufferWrite_eq (size : Int) (data r : Int → Int) (index value : Int)
    (h : bufferWrite size data index value = .ok r) :
    r = Function.update data index value := by
  unfold bufferWrite at h
  split at h
  · cases h
    rfl
  · cases h

/-- A loop returns when each of its steps returns. -/
theorem foldlM_ok {ε σ α : Type} (f : σ → α → Except ε σ) (l : List α)
    (hstep : ∀ s a, a ∈ l → ∃ r, f s a = .ok r) (s : σ) : ∃ r, l.foldlM f s = .ok r := by
  induction l generalizing s with
  | nil => exact ⟨s, rfl⟩
  | cons a rest ih =>
    obtain ⟨s1, h1⟩ := hstep s a (List.mem_cons_self _ _)
    obtain ⟨r, hr⟩ := ih (fun s a ha => hstep s a (List.mem_cons_of_mem _ ha)) s1
    refine ⟨r, ?_⟩
    rw [List.foldlM_cons, h1]
    exact hr

theorem GdemPool.lodCopyRow_frame (W H cx cy : Int) (subdata data r : Int → Int) (y : Nat)
    (i : Int)
    (hi : ∀ x : Nat, (x : Int) < GdemPool.subwidth W → GdemPool.lodDestIndex W H cx cy x y ≠ i)
    (h : GdemPool.lodCopyRow W H cx cy subdata data y = .ok r) : r i = data i := by
  unfold GdemPool.lodCopyRow at h
  refine foldlM_frame _ (fun d : Int → Int => d i) _ ?_ data r h
  intro s a r1 ha hr
  rw [List.mem_range] at ha
  have ha2 : (a : Int) < GdemPool.subwidth W := by omega
  show r1 i = s i
  rw [bufferWrite_eq _ _ _ _ _ hr, Function.update_noteq (hi a ha2).symm]

theorem GdemPool.lodCopy_frame (W H cx cy : Int) (subdata data out : Int → Int) (i : Int)
    (hi : ∀ x y : Nat, (x : Int) < GdemPool.subwidth W → (y : Int) < GdemPool.subheight H →
      GdemPool.lodDestIndex W H cx cy x y ≠ i)
    (h : GdemPool.lodCopy W H cx cy subdata data = .ok out) : out i = data i := by
  unfold GdemPool.lodCopy at h
  refine foldlM_frame _ (fun d : Int → Int => d i) _ ?_ data out h
  intro s a r ha hr
  rw [List.mem_range] at ha
  have ha2 : (a : Int) < GdemPool.subheight H := by omega
  exact GdemPool.lodCopyRow_frame W H cx cy subdata s r a i (fun x hx => hi x a hx ha2) hr

theorem GdemPool.lodCopy_ok (W H cx cy : Int) (subdata data : Int → Int) (hW : 1 ≤ W)
    (hH : 1 ≤ H) : ∃ out, GdemPool.lodCopy W H cx cy subdata data = .ok out := by
  unfold GdemPool.lodCopy
  apply foldlM_ok
  intro s y hy
  rw [List.mem_range] at hy
  unfold GdemPool.lodCopyRow
  apply foldlM_ok
  intro s2 x hx
  rw [List.mem_range] at hx
  obtain ⟨he, b1, b2, b3, b4⟩ := lodDestIndex_eq W H cx cy x y hW hH (by omega) (by omega)
    (by omega) (by omega)
  have hb := grid_index_bounds W H _ _ b3 b4 b1 b2
  rw [← he] at hb
  exact ⟨_, by unfold bufferWrite; rw [if_pos hb]⟩

theorem lodDestIndex_inj (W H cx cy : Int) (x y x2 y2 : Nat) (hW : 1 ≤ W) (hH : 1 ≤ H)
    (hx : (x : Int) < GdemPool.subwidth W) (hy : (y : Int) < GdemPool.subheight H)
    (hx2 : (x2 : Int) < GdemPool.subwidth W) (hy2 : (y2 : Int) < GdemPool.subheight H)
    (h : GdemPool.lodDestIndex W H cx cy x y = GdemPool.lodDestIndex W H cx cy x2 y2) :
    x = x2 ∧ y = y2 := by
  obtain ⟨he, b1, b2, -, -⟩ := lodDestIndex_eq W H cx cy x y hW hH (by omega) hx (by omega) hy
  obtain ⟨he2, c1, c2, -, -⟩ := lodDestIndex_eq W H cx cy x2 y2 hW hH (by omega) hx2
    (by omega) hy2
  rw [he, he2] at h
  have := grid_index_inj W _ _ _ _ b1 b2 c1 c2 h
  omega

theorem GdemPool.lodCopy_value (W H cx cy : Int) (subdata data out : Int → Int) (x y : Nat)
    (hW : 1 ≤ W) (hH : 1 ≤ H) (hx : (x : Int) < GdemPool.subwidth W)
    (hy : (y : Int) < GdemPool.subheight H)
    (h : GdemPool.lodCopy W H cx cy subdata data = .ok out) :
    out (GdemPool.lodDestIndex W H cx cy x y) =
      subdata ((y : Int) * GdemPool.subwidth W + (x : Int)) := by
  unfold GdemPool.lodCopy at h
  obtain ⟨rowStart, rowEnd, -, hrow, hrest⟩ :=
    foldlM_range_split _ (GdemPool.subheight H).toNat y (by omega) _ _ h
  have hrow2 := hrow
  unfold GdemPool.lodCopyRow at hrow2
  obtain ⟨pixStart, pixEnd, -, hpix, hprest⟩ :=
    foldlM_range_split _ (GdemPool.subwidth W).toNat x (by omega) _ _ hrow2
  have h1 : out (GdemPool.lodDestIndex W H cx cy x y) =
      rowEnd (GdemPool.lodDestIndex W H cx cy x y) := by
    refine foldlM_frame _ (fun d : Int → Int => d (GdemPool.lodDestIndex W H cx cy x y)) _ ?_
      rowEnd out hrest
    intro s a r ha hr
    rw [List.mem_range'_1] at ha
    refine GdemPool.lodCopyRow_frame W H cx cy subdata s r a _ ?_ hr
    intro x2 hx2 heq
    have := lodDestIndex_inj W H cx cy x2 a x y hW hH hx2 (by omega) hx hy heq
    omega
  have h2 : rowEnd (GdemPool.lodDestIndex W H cx cy x y) =
      pixEnd (GdemPool.lodDestIndex W H cx cy x y) := by
    refine foldlM_frame _ (fun d : Int → Int => d (GdemPool.lodDestIndex W H cx cy x y)) _ ?_
      pixEnd rowEnd hprest
    intro s a r ha hr
    rw [List.mem_range'_1] at ha
    show r _ = s _
    rw [bufferWrite_eq _ _ _ _ _ hr, Function.update_noteq]
    intro heq
    have := lodDestIndex_inj W H cx cy x y a y hW hH hx hy (by omega) hy heq
    omega
  rw [h1, h2, bufferWrite_eq _ _ _ _ _ hpix, Function.update_same]

/-- C20: for `W, H ≥ 1`, with `w' = W/2 + 1` and `h' = H/2 + 1`, the copy loop of
child `(cx, cy)` returns without writing outside the buffer; for every
sub-tile pixel `(x, y)` the index it writes is `(oy + y)*W + (ox + x)`, which
lies in `[0, W*H)` and ends up holding `subdata[y*w' + x]`, where the origin
`(ox, oy)` is `(0, 0)` for NW, `(0, H - h')` for SW, `(W - w', 0)` for NE and
`(W - w', H - h')` for SE; every other index keeps its value. -/
theorem GdemPool.lodCopy_quadrant (W H cx cy : Int) (subdata data : Int → Int) (hW : 1 ≤ W)
    (hH : 1 ≤ H) :
    GdemPool.subwidth W = W / 2 + 1 ∧ GdemPool.subheight H = H / 2 + 1 ∧
      lodOrigin W H 0 0 = (0, 0) ∧
      lodOrigin W H 0 1 = (0, H - GdemPool.subheight H) ∧
      lodOrigin W H 1 0 = (W - GdemPool.subwidth W, 0) ∧
      lodOrigin W H 1 1 = (W - GdemPool.subwidth W, H - GdemPool.subheight H) ∧
      ∃ out, GdemPool.lodCopy W H cx cy subdata data = .ok out ∧
        (∀ x y : Int, 0 ≤ x → x < GdemPool.subwidth W → 0 ≤ y → y < GdemPool.subheight H →
          GdemPool.lodDestIndex W H cx cy x y =
            ((lodOrigin W H cx cy).2 + y) * W + ((lodOrigin W H cx cy).1 + x) ∧
          0 ≤ GdemPool.lodDestIndex W H cx cy x y ∧
          GdemPool.lodDestIndex W H cx cy x y < W * H ∧
          out (((lodOrigin W H cx cy).2 + y) * W + ((lodOrigin W H cx cy).1 + x)) =
            subdata (y * GdemPool.subwidth W + x)) ∧
        (∀ i : Int, (∀ x y : Int, 0 ≤ x → x < GdemPool.subwidth W → 0 ≤ y →
            y < GdemPool.subheight H →
            i ≠ ((lodOrigin W H cx cy).2 + y) * W + ((lodOrigin W H cx cy).1 + x)) →
          out i = data i) := by
  obtain ⟨out, hout⟩ := GdemPool.lodCopy_ok W H cx cy subdata data hW hH
  refine ⟨(subwidth_bounds W hW).1, (subwidth_bounds H hH).1, rfl, rfl, rfl, rfl, out, hout,
    ?_, ?_⟩
  · intro x y hx0 hx1 hy0 hy1
    obtain ⟨he, b1, b2, b3, b4⟩ := lodDestIndex_eq W H cx cy x y hW hH hx0 hx1 hy0 hy1
    have hb := grid_index_bounds W H _ _ b3 b4 b1 b2
    refine ⟨he, by rw [he]; exact hb.1, by rw [he]; exact hb.2, ?_⟩
    have hv := GdemPool.lodCopy_value W H cx cy subdata data out x.toNat y.toNat hW hH
      (by omega) (by omega) hout
    rw [Int.toNat_of_nonneg hx0, Int.toNat_of_nonneg hy0] at hv
    rw [← he]
    exact hv
  · intro i hi
    refine GdemPool.lodCopy_frame W H cx cy subdata data out i ?_ hout
    intro x y hx hy heq
    obtain ⟨he, -⟩ := lodDestIndex_eq W H cx cy x y hW hH (by omega) hx (by omega) hy
    exact hi x y (by omega) hx (by omega) hy (by rw [← heq, he])

theorem GdemPool.lodCopy_quadrant_witness :
    GdemPool.subwidth 256 = 256 / 2 + 1 ∧ GdemPool.subheight 256 = 256 / 2 + 1 ∧
      lodOrigin 256 256 0 0 = (0, 0) ∧
      lodOrigin 256 256 0 1 = (0, 256 - GdemPool.subheight 256) ∧
      lodOrigin 256 256 1 0 = (256 - GdemPool.subwidth 256, 0) ∧
      lodOrigin 256 256 1 1 = (256 - GdemPool.subwidth 256, 256 - GdemPool.subheight 256) :=
  have h := GdemPool.lodCopy_quadrant 256 256 1 1 (fun i => i) (fun _ => 0) (by decide)
    (by decide)
  ⟨h.1, h.2.1, h.2.2.1, h.2.2.2.1, h.2.2.2.2.1, h.2.2.2.2.2.1⟩

/-! ## Theorems: the pyramid builder -/

theorem lodWrites_iff (W H cx cy c r : Int) (hW : 1 ≤ W) (hH : 1 ≤ H) :
    lodWrites W H cx cy c r ↔ 0 ≤ c ∧ c < W ∧ lodCovers W H cx cy c r = true := by
  unfold lodWrites lodCovers
  rw [decide_eq_true_iff]
  constructor
  · rintro ⟨hc0, hc1, x, y, hx0, hx1, hy0, hy1, hidx⟩
    obtain ⟨he, b1, b2, -, -⟩ := lodDestIndex_eq W H cx cy x y hW hH hx0 hx1 hy0 hy1
    rw [he] at hidx
    obtain ⟨e1, e2⟩ := grid_index_inj W _ _ _ _ b1 b2 hc0 hc1 hidx
    refine ⟨hc0, hc1, ?_⟩
    omega
  · rintro ⟨hc0, hc1, h1, h2, h3, h4⟩
    refine ⟨hc0, hc1, c - (lodOrigin W H cx cy).1, r - (lodOrigin W H cx cy).2,
      by omega, by omega, by omega, by omega, ?_⟩
    rw [(lodDestIndex_eq W H cx cy _ _ hW hH (by omega) (by omega) (by omega) (by omega)).1]
    congr 1 <;> ring

theorem lodWrites_column (W H cx cy c : Int) (hW : 1 ≤ W) (hH : 1 ≤ H) :
    (∃ r, lodWrites W H cx cy c r) ↔ 0 ≤ c ∧ c < W ∧ (lodOrigin W H cx cy).1 ≤ c ∧
      c < (lodOrigin W H cx cy).1 + GdemPool.subwidth W := by
  have hh := subwidth_bounds H hH
  have h1 : 1 ≤ GdemPool.subheight H := hh.2.1
  constructor
  · rintro ⟨r, hr⟩
    rw [lodWrites_iff W H cx cy c r hW hH] at hr
    obtain ⟨a, b, hcov⟩ := hr
    unfold lodCovers at hcov
    rw [decide_eq_true_iff] at hcov
    exact ⟨a, b, hcov.1, hcov.2.1⟩
  · rintro ⟨a, b, h2, h3⟩
    refine ⟨(lodOrigin W H cx cy).2, ?_⟩
    rw [lodWrites_iff W H cx cy c _ hW hH]
    refine ⟨a, b, ?_⟩
    unfold lodCovers
    rw [decide_eq_true_iff]
    exact ⟨h2, h3, le_refl _, by omega⟩

theorem lodWrites_row (W H cx cy r : Int) (hW : 1 ≤ W) (hH : 1 ≤ H) :
    (∃ c, lodWrites W H cx cy c r) ↔ (lodOrigin W H cx cy).2 ≤ r ∧
      r < (lodOrigin W H cx cy).2 + GdemPool.subheight H := by
  obtain ⟨-, w1, w2⟩ := subwidth_bounds W hW
  constructor
  · rintro ⟨c, hc⟩
    rw [lodWrites_iff W H cx cy c r hW hH] at hc
    obtain ⟨-, -, hcov⟩ := hc
    unfold lodCovers at hcov
    rw [decide_eq_true_iff] at hcov
    exact ⟨hcov.2.2.1, hcov.2.2.2⟩
  · rintro ⟨h2, h3⟩
    refine ⟨(lodOrigin W H cx cy).1, ?_⟩
    rw [lodWrites_iff W H cx cy _ r hW hH]
    have ho : 0 ≤ (lodOrigin W H cx cy).1 ∧ (lodOrigin W H cx cy).1 < W := by
      unfold lodOrigin
      by_cases hcx : cx = 0 <;> simp only [hcx, if_true, if_false] <;> omega
    refine ⟨ho.1, ho.2, ?_⟩
    unfold lodCovers
    rw [decide_eq_true_iff]
    exact ⟨le_refl _, by omega, h2, h3⟩

/-- C21 (as the code computes it): for `W, H ≥ 1`, a column is written by both a
west and an east quadrant iff it lies in `W - 1 - W/2 .. W/2`: the two columns
`W/2 - 1` and `W/2` when `W` is even (127 and 128 for `W = 256`), the one column
`W/2` when `W` is odd; likewise a row is written by both a north and a south
quadrant iff it is `H/2 - 1` or `H/2` for even `H`, and `H/2` for odd `H`. -/
theorem lod_seam_overlap (W H cy cy2 cx cx2 c r : Int) (hW : 1 ≤ W) (hH : 1 ≤ H) :
    (W % 2 = 0 → (((∃ r0, lodWrites W H 0 cy c r0) ∧ (∃ r0, lodWrites W H 1 cy2 c r0)) ↔
        (c = W / 2 - 1 ∨ c = W / 2))) ∧
      (W % 2 = 1 → (((∃ r0, lodWrites W H 0 cy c r0) ∧ (∃ r0, lodWrites W H 1 cy2 c r0)) ↔
        c = W / 2)) ∧
      (H % 2 = 0 → (((∃ c0, lodWrites W H cx 0 c0 r) ∧ (∃ c0, lodWrites W H cx2 1 c0 r)) ↔
        (r = H / 2 - 1 ∨ r = H / 2))) ∧
      (H % 2 = 1 → (((∃ c0, lodWrites W H cx 0 c0 r) ∧ (∃ c0, lodWrites W H cx2 1 c0 r)) ↔
        r = H / 2)) := by
  obtain ⟨we, w1, w2⟩ := subwidth_bounds W hW
  have hh := subwidth_bounds H hH
  have he : GdemPool.subheight H = H / 2 + 1 := hh.1
  have ox0 : ∀ k : Int, (lodOrigin W H 0 k).1 = 0 := fun k => rfl
  have ox1 : ∀ k : Int, (lodOrigin W H 1 k).1 = W - GdemPool.subwidth W := fun k => rfl
  have oy0 : ∀ k : Int, (lodOrigin W H k 0).2 = 0 := fun k => rfl
  have oy1 : ∀ k : Int, (lodOrigin W H k 1).2 = H - GdemPool.subheight H := fun k => rfl
  simp only [lodWrites_column W H _ _ _ hW hH, lodWrites_row W H _ _ _ hW hH, ox0, ox1, oy0,
    oy1, we, he]
  refine ⟨?_, ?_, ?_, ?_⟩ <;> intro hpar <;> constructor <;> intro h <;> omega

theorem lod_seam_overlap_witness :
    (((∃ r0, lodWrites 256 256 0 0 127 r0) ∧ (∃ r0, lodWrites 256 256 1 0 127 r0)) ↔
      ((127 : Int) = 256 / 2 - 1 ∨ (127 : Int) = 256 / 2)) :=
  (lod_seam_overlap 256 256 0 0 0 0 127 0 (by decide) (by decide)).1 (by decide)

/-- C21 fails as stated for even sizes: with `W = H = 256` the column 127, which
is not the center column `W/2 = 128`, is written by the west quadrant `(0, 0)`
(sub-tile column 127) and by the east quadrant `(1, 0)` (sub-tile column 0). -/
theorem lod_seam_two_columns :
    lodWrites 256 256 0 0 127 0 ∧ lodWrites 256 256 1 0 127 0 ∧ (127 : Int) ≠ 256 / 2 := by
  refine ⟨⟨by decide, by decide, 127, 0, by decide, by decide, by decide, by decide, by decide⟩,
    ⟨by decide, by decide, 0, 0, by decide, by decide, by decide, by decide, by decide⟩,
    by decide⟩

/-- A copy loop leaves at each pixel of the grid the sample of its sub-tile if it
covers the pixel, and what was there before if not. -/
theorem GdemPool.lodCopy_pixel (W H cx cy : Int) (subdata data out : Int → Int) (c r : Int)
    (hW : 1 ≤ W) (hH : 1 ≤ H) (hc0 : 0 ≤ c) (hc1 : c < W)
    (h : GdemPool.lodCopy W H cx cy subdata data = .ok out) :
    out (r * W + c) =
      if lodCovers W H cx cy c r = true then lodSample W H cx cy subdata c r
      else data (r * W + c) := by
  by_cases hcov : lodCovers W H cx cy c r = true
  · rw [if_pos hcov]
    unfold lodCovers at hcov
    rw [decide_eq_true_iff] at hcov
    obtain ⟨h1, h2, h3, h4⟩ := hcov
    have hx0 : 0 ≤ c - (lodOrigin W H cx cy).1 := by omega
    have hy0 : 0 ≤ r - (lodOrigin W H cx cy).2 := by omega
    have hv := GdemPool.lodCopy_value W H cx cy subdata data out
      (c - (lodOrigin W H cx cy).1).toNat (r - (lodOrigin W H cx cy).2).toNat hW hH
      (by omega) (by omega) h
    rw [Int.toNat_of_nonneg hx0, Int.toNat_of_nonneg hy0,
      (lodDestIndex_eq W H cx cy _ _ hW hH hx0 (by omega) hy0 (by omega)).1] at hv
    unfold lodSample
    rw [← hv]
    congr 1
    ring
  · rw [if_neg hcov]
    refine GdemPool.lodCopy_frame W H cx cy subdata data out _ ?_ h
    intro x y hx hy heq
    apply hcov
    obtain ⟨he, b1, b2, -, -⟩ := lodDestIndex_eq W H cx cy x y hW hH (by omega) hx (by omega) hy
    rw [he] at heq
    obtain ⟨e1, e2⟩ := grid_index_inj W _ _ _ _ b1 b2 hc0 hc1 heq
    unfold lodCovers
    rw [decide_eq_true_iff]
    omega

theorem GdemPool.lodReadChild_readable
    (rebuild : (String → Option TileFile) → String → Option TileFile)
    (disk : String → Option TileFile) (path : String) (subdata : Int → Int)
    (h : disk path = some (TileFile.readable subdata)) :
    GdemPool.lodReadChild rebuild disk path = .ok (subdata, disk) := by
  unfold GdemPool.lodReadChild gdalOpen
  simp only [h, rasterRead]

/-- Every pixel of the grid lies in the quadrant of some child. -/
theorem lodCovers_some (W H c r : Int) (hW : 1 ≤ W) (hH : 1 ≤ H) (hc0 : 0 ≤ c) (hc1 : c < W)
    (hr0 : 0 ≤ r) (hr1 : r < H) :
    (lodCovers W H 0 0 c r = true ∨ lodCovers W H 0 1 c r = true) ∨
      (lodCovers W H 1 0 c r = true ∨ lodCovers W H 1 1 c r = true) := by
  obtain ⟨we, -, -⟩ := subwidth_bounds W hW
  have he : GdemPool.subheight H = H / 2 + 1 := (subwidth_bounds H hH).1
  have e00 : lodOrigin W H 0 0 = (0, 0) := rfl
  have e01 : lodOrigin W H 0 1 = (0, H - GdemPool.subheight H) := rfl
  have e10 : lodOrigin W H 1 0 = (W - GdemPool.subwidth W, 0) := rfl
  have e11 : lodOrigin W H 1 1 = (W - GdemPool.subwidth W, H - GdemPool.subheight H) := rfl
  unfold lodCovers
  simp only [decide_eq_true_iff, e00, e01, e10, e11, we, he]
  omega

/-- C25: for `W, H ≥ 1`, when the output does not exist yet and the four children
exist and are read successfully, `makeLodImage` assembles a buffer in which
every pixel `(c, r)` of the `W x H` grid lies in the quadrant of some child and
holds the sample of the last child, in the copy order NW, SW, NE, SE, whose
quadrant covers it; the pixel `(W/2, H/2)` holds the sample of the SE child at
`(W/2 - (W - w'), H/2 - (H - h'))`. -/
theorem GdemPool.makeLodImage_assembles (tilePath : Int → Int → Int → String)
    (rebuild : (String → Option TileFile) → String → Option TileFile)
    (disk : String → Option TileFile) (z x y W H : Int) (sub00 sub01 sub10 sub11 : Int → Int)
    (hW : 1 ≤ W) (hH : 1 ≤ H) (hout : disk (tilePath z x y) = none)
    (h00 : disk (tilePath (z + 1) (x * 2) (y * 2)) = some (TileFile.readable sub00))
    (h01 : disk (tilePath (z + 1) (x * 2) (y * 2 + 1)) = some (TileFile.readable sub01))
    (h10 : disk (tilePath (z + 1) (x * 2 + 1) (y * 2)) = some (TileFile.readable sub10))
    (h11 : disk (tilePath (z + 1) (x * 2 + 1) (y * 2 + 1)) = some (TileFile.readable sub11)) :
    ∃ out, GdemPool.makeLodImage tilePath rebuild disk z x y W H "grey" = .ok (out, disk) ∧
      (∀ c r : Int, 0 ≤ c → c < W → 0 ≤ r → r < H →
        ((lodCovers W H 0 0 c r = true ∨ lodCovers W H 0 1 c r = true) ∨
          (lodCovers W H 1 0 c r = true ∨ lodCovers W H 1 1 c r = true)) ∧
        out (r * W + c) =
          if lodCovers W H 1 1 c r = true then lodSample W H 1 1 sub11 c r
          else if lodCovers W H 1 0 c r = true then lodSample W H 1 0 sub10 c r
          else if lodCovers W H 0 1 c r = true then lodSample W H 0 1 sub01 c r
          else lodSample W H 0 0 sub00 c r) ∧
      out (H / 2 * W + W / 2) =
        sub11 ((H / 2 - (H - GdemPool.subheight H)) * GdemPool.subwidth W +
          (W / 2 - (W - GdemPool.subwidth W))) := by
  obtain ⟨d1, hd1⟩ := GdemPool.lodCopy_ok W H 0 0 sub00 (fun _ => 0) hW hH
  obtain ⟨d2, hd2⟩ := GdemPool.lodCopy_ok W H 0 1 sub01 d1 hW hH
  obtain ⟨d3, hd3⟩ := GdemPool.lodCopy_ok W H 1 0 sub10 d2 hW hH
  obtain ⟨d4, hd4⟩ := GdemPool.lodCopy_ok W H 1 1 sub11 d3 hW hH
  have hrun : GdemPool.makeLodImage tilePath rebuild disk z x y W H "grey" = .ok (d4, disk) := by
    unfold GdemPool.makeLodImage GdemPool.lodChildStep
    simp only [hout, h00, h01, h10, h11, Option.isSome_none, Option.isSome_some,
      Bool.not_true, Bool.false_and, Bool.false_eq_true, if_false, if_true,
      GdemPool.lodReadChild_readable rebuild disk _ _ h00,
      GdemPool.lodReadChild_readable rebuild disk _ _ h01,
      GdemPool.lodReadChild_readable rebuild disk _ _ h10,
      GdemPool.lodReadChild_readable rebuild disk _ _ h11, hd1, hd2, hd3, hd4]
  have hpix : ∀ c r : Int, 0 ≤ c → c < W →
      d4 (r * W + c) =
        if lodCovers W H 1 1 c r = true then lodSample W H 1 1 sub11 c r
        else if lodCovers W H 1 0 c r = true then lodSample W H 1 0 sub10 c r
        else if lodCovers W H 0 1 c r = true then lodSample W H 0 1 sub01 c r
        else if lodCovers W H 0 0 c r = true then lodSample W H 0 0 sub00 c r
        else 0 := by
    intro c r hc0 hc1
    rw [GdemPool.lodCopy_pixel W H 1 1 sub11 d3 d4 c r hW hH hc0 hc1 hd4,
      GdemPool.lodCopy_pixel W H 1 0 sub10 d2 d3 c r hW hH hc0 hc1 hd3,
      GdemPool.lodCopy_pixel W H 0 1 sub01 d1 d2 c r hW hH hc0 hc1 hd2,
      GdemPool.lodCopy_pixel W H 0 0 sub00 (fun _ => 0) d1 c r hW hH hc0 hc1 hd1]
  refine ⟨d4, hrun, ?_, ?_⟩
  · intro c r hc0 hc1 hr0 hr1
    have hsome := lodCovers_some W H c r hW hH hc0 hc1 hr0 hr1
    refine ⟨hsome, ?_⟩
    rw [hpix c r hc0 hc1]
    by_cases a : lodCovers W H 1 1 c r = true
    · simp only [a, if_true]
    · by_cases b : lodCovers W H 1 0 c r = true
      · simp only [a, b, if_true, if_false]
      · by_cases e : lodCovers W H 0 1 c r = true
        · simp only [a, b, e, if_true, if_false]
        · have f : lodCovers W H 0 0 c r = true := by
            rcases hsome with (h | h) | (h | h)
            · exact h
            · exact absurd h e
            · exact absurd h b
            · exact absurd h a
          simp only [a, b, e, f, if_true, if_false]
  · obtain ⟨we, w1, w2⟩ := subwidth_bounds W hW
    have hh := subwidth_bounds H hH
    have he : GdemPool.subheight H = H / 2 + 1 := hh.1
    have hcov : lodCovers W H 1 1 (W / 2) (H / 2) = true := by
      have e11 : lodOrigin W H 1 1 = (W - GdemPool.subwidth W, H - GdemPool.subheight H) := rfl
      unfold lodCovers
      simp only [decide_eq_true_iff, e11, we, he]
      omega
    rw [hpix (W / 2) (H / 2) (by omega) (by omega), if_pos hcov]
    rfl

theorem GdemPool.makeLodImage_assembles_witness :
    ∃ out, GdemPool.makeLodImage (fun z x y => toString z ++ "/" ++ toString x ++ "/" ++ toString y)
        (fun _ _ => none)
        (fun p => if p = "1/0/0" then some (TileFile.readable (fun _ => 10))
          else if p = "1/0/1" then some (TileFile.readable (fun _ => 20))
          else if p = "1/1/0" then some (TileFile.readable (fun _ => 30))
          else if p = "1/1/1" then some (TileFile.readable (fun _ => 40))
          else none) 0 0 0 256 256 "grey" =
        .ok (out, fun p => if p = "1/0/0" then some (TileFile.readable (fun _ => 10))
          else if p = "1/0/1" then some (TileFile.readable (fun _ => 20))
          else if p = "1/1/0" then some (TileFile.readable (fun _ => 30))
          else if p = "1/1/1" then some (TileFile.readable (fun _ => 40))
          else none) ∧
      out (256 / 2 * 256 + 256 / 2) = 40 := by
  obtain ⟨out, h1, -, h3⟩ := GdemPool.makeLodImage_assembles
    (fun z x y => toString z ++ "/" ++ toString x ++ "/" ++ toString y) (fun _ _ => none)
    (fun p => if p = "1/0/0" then some (TileFile.readable (fun _ => 10))
      else if p = "1/0/1" then some (TileFile.readable (fun _ => 20))
      else if p = "1/1/0" then some (TileFile.readable (fun _ => 30))
      else if p = "1/1/1" then some (TileFile.readable (fun _ => 40))
      else none) 0 0 0 256 256 (fun _ => 10) (fun _ => 20) (fun _ => 30) (fun _ => 40)
    (by decide) (by decide) rfl rfl rfl rfl rfl
  exact ⟨out, h1, h3⟩

/-- When the child cannot be opened and the recreation leaves no file that
opens, the second `GDALOpen` returns null and the unguarded
`poDataset->RasterIO` runs on it. -/
theorem GdemPool.lodReadChild_unopenable
    (rebuild : (String → Option TileFile) → String → Option TileFile)
    (disk : String → Option TileFile) (path : String)
    (hopen : gdalOpen disk path = none) (hre : rebuild disk path = none) :
    GdemPool.lodReadChild rebuild disk path = .error (LodStop.nullDereference path) := by
  simp only [GdemPool.lodReadChild, hopen, hre]
  simp [gdalOpen]

/-- When the child opens but cannot be read and the recreation leaves no file
that opens, the reopened dataset is null and the second `RasterIO` runs on it. -/
theorem GdemPool.lodReadChild_unreadable
    (rebuild : (String → Option TileFile) → String → Option TileFile)
    (disk : String → Option TileFile) (path : String)
    (hfile : disk path = some TileFile.unreadable) (hre : rebuild disk path = none) :
    GdemPool.lodReadChild rebuild disk path = .error (LodStop.nullDereference path) := by
  simp [GdemPool.lodReadChild, hfile, hre, gdalOpen, rasterRead]

/-- When the child opens but cannot be read, and the recreated file opens and
still cannot be read, the parent tile is abandoned. -/
theorem GdemPool.lodReadChild_abandons
    (rebuild : (String → Option TileFile) → String → Option TileFile)
    (disk : String → Option TileFile) (path : String)
    (hfile : disk path = some TileFile.unreadable)
    (hre : rebuild disk path = some TileFile.unreadable) :
    GdemPool.lodReadChild rebuild disk path = .error (LodStop.abandoned path) := by
  simp [GdemPool.lodReadChild, hfile, hre, gdalOpen, rasterRead]

/-- C23 fails on the code: the parent tile `0/0/0` has one existing child
`1/0/0`, which `GDALOpen` cannot open, and the recreation produces no file.
`makeLodImage` does not abandon the parent: the pointer returned by the second
`GDALOpen` is null and `poDataset->RasterIO` is called on it.  The same happens
when the child opens, its read fails and the recreation produces no file. -/
theorem GdemPool.makeLodImage_null_dereference :
    GdemPool.makeLodImage (fun z x y => toString z ++ "/" ++ toString x ++ "/" ++ toString y)
        (fun _ _ => none)
        (fun p => if p = "1/0/0" then some TileFile.unopenable else none)
        0 0 0 256 256 "grey" = .error (LodStop.nullDereference "1/0/0") ∧
      GdemPool.makeLodImage (fun z x y => toString z ++ "/" ++ toString x ++ "/" ++ toString y)
        (fun _ _ => none)
        (fun p => if p = "1/0/0" then some TileFile.unreadable else none)
        0 0 0 256 256 "grey" = .error (LodStop.nullDereference "1/0/0") := by
  constructor <;> rfl

/-! ## Theorems: termination of the level selection -/

/-- For `tile_size ≥ 2` the level loop ends within 21 rounds, at the least `L`
with `180 / (tile_size - 1) / 2^L ≤ 1/3600`. -/
theorem initLodLoop_least (fuel : Nat) (tile_size : Int) (hts : 2 ≤ tile_size)
    (hfuel : 21 ≤ fuel) :
    ∃ L : Nat, L ≤ 20 ∧
      initLodLoop fuel (180 / ((tile_size : ℚ) - 1)) (1 / 3600) 0 = some (L : Int) ∧
      180 / ((tile_size : ℚ) - 1) / 2 ^ L ≤ 1 / 3600 ∧
      ∀ L' : Nat, L' < L → 180 / ((tile_size : ℚ) - 1) / 2 ^ L' > 1 / 3600 := by
  have hts1 : (1 : ℚ) ≤ (tile_size : ℚ) - 1 := by
    have : (2 : ℚ) ≤ (tile_size : ℚ) := by exact_mod_cast hts
    linarith
  have h20 : 180 / ((tile_size : ℚ) - 1) / 2 ^ 20 ≤ 1 / 3600 := by
    rw [div_le_iff₀ (by positivity), div_le_iff₀ (by linarith)]
    norm_num
    linarith
  have hex : ∃ k : Nat, 180 / ((tile_size : ℚ) - 1) / 2 ^ k ≤ 1 / 3600 := ⟨20, h20⟩
  classical
  have hfind := Nat.find_spec hex
  have hmin : ∀ j : Nat, j < Nat.find hex → 180 / ((tile_size : ℚ) - 1) / 2 ^ j > 1 / 3600 :=
    fun j hj => not_le.1 (Nat.find_min hex hj)
  have hle : Nat.find hex ≤ 20 := Nat.find_min' hex h20
  have h := initLodLoop_eq (1 / 3600) (Nat.find hex) fuel (180 / ((tile_size : ℚ) - 1)) 0
    (by omega) hmin hfind
  refine ⟨Nat.find hex, hle, ?_, hfind, hmin⟩
  rw [h]
  simp

/-- For `tile_size = 1` the level selection never ends, whatever the fuel. -/
theorem GdemPool.initMaxLod_tile_size_one (fuel : Nat) (max_lod : Int) :
    GdemPool.initMaxLod fuel max_lod 1 = none := by
  simp [GdemPool.initMaxLod]

/-- C24 (as the code computes it): for every `tile_size ≥ 2` the level loop of
`init` ends (21 rounds suffice) with `lod` the least `L ≥ 0` such that
`180 / (tile_size - 1) / 2^L ≤ 1/3600`; a `max_lod` in `[0, lod]` is kept and
any other value is replaced by `lod`. -/
theorem GdemPool.initMaxLod_clamp (fuel : Nat) (max_lod tile_size : Int) (hts : 2 ≤ tile_size)
    (hfuel : 21 ≤ fuel) :
    ∃ L : Nat, 180 / ((tile_size : ℚ) - 1) / 2 ^ L ≤ 1 / 3600 ∧
      (∀ L' : Nat, L' < L → 180 / ((tile_size : ℚ) - 1) / 2 ^ L' > 1 / 3600) ∧
      GdemPool.initMaxLod fuel max_lod tile_size =
        some (if 0 ≤ max_lod ∧ max_lod ≤ (L : Int) then max_lod else (L : Int)) := by
  obtain ⟨L, -, hloop, hle, hmin⟩ := initLodLoop_least fuel tile_size hts hfuel
  refine ⟨L, hle, hmin, ?_⟩
  have hne : ¬ tile_size = 1 := by omega
  simp only [GdemPool.initMaxLod, if_neg hne, hloop]
  by_cases h : max_lod < 0 ∨ max_lod > (L : Int)
  · rw [if_pos h, if_neg (by omega)]
  · rw [if_neg h, if_pos (by omega)]

theorem GdemPool.initMaxLod_clamp_witness :
    ∃ L : Nat, 180 / (((256 : Int) : ℚ) - 1) / 2 ^ L ≤ 1 / 3600 ∧
      (∀ L' : Nat, L' < L → 180 / (((256 : Int) : ℚ) - 1) / 2 ^ L' > 1 / 3600) ∧
      GdemPool.initMaxLod 21 5 256 =
        some (if 0 ≤ (5 : Int) ∧ (5 : Int) ≤ (L : Int) then 5 else (L : Int)) :=
  GdemPool.initMaxLod_clamp 21 5 256 (by decide) (by decide)

/-- C24 fails as stated at `tile_size = 1`: the resolution `180.0 / 0.0` is
`+inf`, which halving leaves unchanged, so the loop does not end and no level
is selected, with 64 rounds as with a million. -/
theorem GdemPool.initMaxLod_tile_size_one_diverges :
    GdemPool.initMaxLod 64 (-1) 1 = none ∧ GdemPool.initMaxLod 1000000 (-1) 1 = none ∧
      GdemPool.initMaxLod 1000000 0 1 = none := by
  exact ⟨GdemPool.initMaxLod_tile_size_one 64 (-1), GdemPool.initMaxLod_tile_size_one 1000000 (-1),
    GdemPool.initMaxLod_tile_size_one 1000000 0⟩

/-! ## Theorems: the progress counters -/

/-- A value within the 64-bit range is stored unchanged. -/
theorem toInt64_eq (n : Int) (h0 : -2 ^ 63 ≤ n) (h1 : n < 2 ^ 63) : toInt64 n = n := by
  unfold toInt64
  rw [Int.emod_eq_of_lt (by omega) (by omega)]
  ring

/-- A value within the 32-bit range is stored unchanged. -/
theorem toInt32_eq (n : Int) (h0 : -2 ^ 31 ≤ n) (h1 : n < 2 ^ 31) : toInt32 n = n := by
  unfold toInt32
  rw [Int.emod_eq_of_lt (by omega) (by omega)]
  ring

/-- A loop whose body adds `c` to a nonnegative counter, as long as the sum
stays below `B`, adds `n * c` in `n` rounds. -/
theorem foldl_range_add (f : Int → Nat → Int) (c B : Int) (hc : 0 ≤ c)
    (hf : ∀ (tp : Int) (x : Nat), 0 ≤ tp → tp + c < B → f tp x = tp + c) :
    ∀ (n : Nat) (tp : Int), 0 ≤ tp → tp + n * c < B →
      (List.range n).foldl f tp = tp + n * c := by
  intro n
  induction n with
  | zero => intro tp _ _; simp
  | succ n ih =>
    intro tp h0 h1
    have hn : (0 : Int) ≤ (n : Int) * c := mul_nonneg (Int.ofNat_nonneg n) hc
    have e : ((n + 1 : Nat) : Int) * c = (n : Int) * c + c := by push_cast; ring
    rw [e] at h1
    rw [List.range_succ, List.foldl_append, ih tp h0 (by omega)]
    simp only [List.foldl_cons, List.foldl_nil]
    rw [hf _ n (by omega) (by omega), e]
    ring

/-- Powers of four up to `4^30`. -/
theorem four_pow_le (n : Nat) (hn : n ≤ 30) : (4 : Int) ^ n ≤ 4 ^ 30 :=
  pow_le_pow_right₀ (by norm_num) hn

/-- Powers of two up to `2^29`. -/
theorem two_pow_le (n : Nat) (hn : n ≤ 29) : (2 : Int) ^ n ≤ 2 ^ 29 :=
  pow_le_pow_right₀ (by norm_num) hn

/-- One level adds its `2 * 4^z` tiles to the counter, whatever the pool
contains. -/
theorem levelProcessed_eq (pool : GdemPool) (z : Nat) (tp : Int) (hz : z ≤ 29)
    (h0 : 0 ≤ tp) (h1 : tp + 2 * 4 ^ z < 2 ^ 63) :
    levelProcessed pool z tp = tp + 2 * 4 ^ z := by
  have hp : (0 : Int) < 2 ^ z := by positivity
  have hle := two_pow_le z hz
  have h4 : (4 : Int) ^ z = 2 ^ z * 2 ^ z := by
    rw [← mul_pow]
    norm_num
  have hx : toInt32 (2 * 2 ^ z) = 2 * 2 ^ z := toInt32_eq _ (by omega) (by omega)
  have hy : toInt32 (2 ^ z) = 2 ^ z := toInt32_eq _ (by omega) (by omega)
  have hxn : (((2 * 2 ^ z : Int)).toNat : Int) = 2 * 2 ^ z := Int.toNat_of_nonneg (by omega)
  have hyn : (((2 ^ z : Int)).toNat : Int) = 2 ^ z := Int.toNat_of_nonneg (by omega)
  unfold levelProcessed
  simp only [hx, hy]
  rw [foldl_range_add _ (2 ^ z) (2 ^ 63) (by omega) _ _ tp h0 (by rw [hxn]; nlinarith), hxn, h4]
  · ring
  · intro t x ht0 ht1
    by_cases hc : pool.contains (-180 + (x : ℚ) * (360 / ((2 * 2 ^ z : Int) : ℚ))) (-90)
        (-180 + (x : ℚ) * (360 / ((2 * 2 ^ z : Int) : ℚ)) + 360 / ((2 * 2 ^ z : Int) : ℚ)) 90 = true
    · simp only [hc, Bool.not_true, Bool.false_eq_true, if_false]
      rw [foldl_range_add (fun tp2 _ => toInt64 (tp2 + 1)) 1 (2 ^ 63) (by omega)
        (fun a _ ha0 ha1 => toInt64_eq _ (by omega) ha1) _ t ht0 (by rw [hyn]; omega), hyn]
      ring
    · simp only [hc, Bool.not_false, if_true]
      exact toInt64_eq _ (by omega) ht1

/-- The sum of the level sizes below `n` is at most `4^n`. -/
theorem level_sum_le (n : Nat) : (∑ z in Finset.range n, (2 * 4 ^ z : Int)) ≤ 4 ^ n := by
  induction n with
  | zero => simp
  | succ n ih =>
    rw [Finset.sum_range_succ, pow_succ]
    have : (0 : Int) < 4 ^ n := by positivity
    omega

/-- The total of `tileset` is `2 * 4^max_lod` up to level 29. -/
theorem tilesetTotal_eq (max_lod : Int) (h0 : 0 ≤ max_lod) (h1 : max_lod ≤ 29) :
    tilesetTotal max_lod = 2 * 4 ^ max_lod.toNat := by
  have key : ∀ n : Nat, n ≤ 30 →
      (List.range n).foldl (fun (ztilesTotal : Int) _ => toInt64 (ztilesTotal * 4)) 2 =
        2 * 4 ^ n := by
    intro n
    induction n with
    | zero => intro _; simp
    | succ n ih =>
      intro hn
      have hle := four_pow_le (n + 1) hn
      have hp : (0 : Int) < 4 ^ (n + 1) := by positivity
      rw [List.range_succ, List.foldl_append, ih (by omega)]
      simp only [List.foldl_cons, List.foldl_nil]
      rw [toInt64_eq _ (by rw [pow_succ] at hp; omega) (by rw [pow_succ] at hle; omega), pow_succ]
      ring
  exact key max_lod.toNat (by omega)

/-- The counter of `tileset` reaches its total up to level 29. -/
theorem tilesetProcessed_eq (pool : GdemPool) (max_lod : Int) (h0 : 0 ≤ max_lod)
    (h1 : max_lod ≤ 29) :
    tilesetProcessed pool max_lod = tilesetTotal max_lod := by
  have hle := four_pow_le max_lod.toNat (by omega)
  rw [tilesetTotal_eq max_lod h0 h1, tilesetProcessed,
    levelProcessed_eq pool max_lod.toNat 0 (by omega) (by omega) (by omega)]
  ring

/-- The total of `makelod` is the sum of the level sizes `2 * 4^z` over
`z = 0 .. max_lod - 1`, for `max_lod` from 1 to 30. -/
theorem makelodTotal_eq (max_lod : Int) (h0 : 1 ≤ max_lod) (h1 : max_lod ≤ 30) :
    makelodTotal max_lod = ∑ z in Finset.range max_lod.toNat, (2 * 4 ^ z : Int) := by
  have key : ∀ n : Nat, n ≤ 29 →
      (List.range n).foldl (fun (st : Int × Int) _ =>
        (toInt64 (st.1 + toInt64 (st.2 * 4)), toInt64 (st.2 * 4))) (2, 2) =
        (∑ z in Finset.range (n + 1), (2 * 4 ^ z : Int), 2 * 4 ^ n) := by
    intro n
    induction n with
    | zero => intro _; simp
    | succ n ih =>
      intro hn
      have hle := four_pow_le (n + 1) (by omega)
      have hp : (0 : Int) < 4 ^ n := by positivity
      have hs := level_sum_le (n + 1)
      have hs0 : (0 : Int) ≤ ∑ z in Finset.range (n + 1), (2 * 4 ^ z : Int) :=
        Finset.sum_nonneg (fun z _ => by positivity)
      rw [pow_succ] at hle hs
      rw [List.range_succ, List.foldl_append, ih (by omega)]
      simp only [List.foldl_cons, List.foldl_nil]
      rw [toInt64_eq (2 * 4 ^ n * 4) (by omega) (by omega),
        toInt64_eq _ (by omega) (by omega), Finset.sum_range_succ _ (n + 1), pow_succ]
      congr 1 <;> ring
  have hn : max_lod.toNat = (max_lod - 1).toNat + 1 := by omega
  unfold makelodTotal
  rw [key (max_lod - 1).toNat (by omega), hn]

/-- The counter of `makelod` reaches the sum of the level sizes up to level 29. -/
theorem makelodProcessed_eq (pool : GdemPool) (max_lod : Int) (h1 : max_lod ≤ 30) :
    makelodProcessed pool max_lod = ∑ z in Finset.range max_lod.toNat, (2 * 4 ^ z : Int) := by
  have key : ∀ n : Nat, n ≤ 30 → ∀ tp : Int, 0 ≤ tp → tp + 4 ^ n < 2 ^ 63 →
      (List.range n).reverse.foldl (fun tp z => levelProcessed pool z tp) tp =
        tp + ∑ z in Finset.range n, (2 * 4 ^ z : Int) := by
    intro n
    induction n with
    | zero => intro _ tp _ _; simp
    | succ n ih =>
      intro hn tp ht0 ht1
      have hp : (0 : Int) < 4 ^ n := by positivity
      rw [pow_succ] at ht1
      rw [List.range_succ, List.reverse_append, List.reverse_singleton, List.singleton_append,
        List.foldl_cons, levelProcessed_eq pool n tp (by omega) ht0 (by omega),
        ih (by omega) _ (by omega) (by omega), Finset.sum_range_succ]
      ring
  have hle := four_pow_le max_lod.toNat (by omega)
  rw [makelodProcessed, key max_lod.toNat (by omega) 0 (by omega) (by norm_num at hle ⊢; omega)]
  ring

/-- Up to level 29 both counters reach their totals whenever `makelod` has a
level to build: for `1 ≤ max_lod ≤ 29` the counter of `tileset` ends at
`2 * 4^max_lod` and the counter of `makelod` at the sum of `2 * 4^z` over
`z < max_lod`, the values stored in `state.tilesTotal`. -/
theorem counters_reach_totals (pool : GdemPool) (max_lod : Int) (h0 : 1 ≤ max_lod)
    (h1 : max_lod ≤ 29) :
    tilesetProcessed pool max_lod = tilesetTotal max_lod ∧
      tilesetTotal max_lod = 2 * 4 ^ max_lod.toNat ∧
      makelodProcessed pool max_lod = makelodTotal max_lod ∧
      makelodTotal max_lod = ∑ z in Finset.range max_lod.toNat, (2 * 4 ^ z : Int) :=
  ⟨tilesetProcessed_eq pool max_lod (by omega) h1, tilesetTotal_eq max_lod (by omega) h1,
    by rw [makelodProcessed_eq pool max_lod (by omega), makelodTotal_eq max_lod h0 (by omega)],
    makelodTotal_eq max_lod h0 (by omega)⟩

/-- C22 fails on the code: for `max_lod = 0` the pass `makelod` stores
`tilesTotal = 2` and builds no level, so its counter ends at 0, which is the
claimed sum over no level and not the total; the pass `tileset` does reach its
total 2. -/
theorem makelod_total_at_level_zero (pool : GdemPool) :
    makelodTotal 0 = 2 ∧ makelodProcessed pool 0 = 0 ∧
      (∑ z in Finset.range (0 : Int).toNat, (2 * 4 ^ z : Int)) = 0 ∧
      makelodProcessed pool 0 ≠ makelodTotal 0 ∧
      tilesetProcessed pool 0 = 2 ∧ tilesetTotal 0 = 2 := by
  have hp : tilesetProcessed pool 0 = 2 := by
    have h := levelProcessed_eq pool 0 0 (by omega) (by omega) (by norm_num)
    simpa [tilesetProcessed] using h
  have ht : makelodTotal 0 = 2 := rfl
  have hm : makelodProcessed pool 0 = 0 := rfl
  refine ⟨ht, hm, rfl, ?_, hp, rfl⟩
  rw [ht, hm]
  decide

end GdemTileset
